import Mathlib

/-!
# mi-resonator.hpp: one-pole filter, resonator state-variable filter bank, cosine oscillator

A shallow embedding of `plugins/mutated/mi-resonator.hpp`.

The C++ code computes on `float`.  The embedding is written once, over an arbitrary linearly
ordered field `α`, so that every definition can be evaluated on rational inputs, and the
theorems are stated over that field or over `ℝ` (exact arithmetic, no rounding).  Where a
statement is about the rounded `float` values themselves, `roundBinary32` is the rounding of
an exact result to `float` and `OnePole.ProcessRounded` applies it after every operation.

The header takes three things from `math.h`: the constant `M_PI` and the functions `tanf` and
`cosf`.  The definitions that use them receive them as arguments of the same names; the theorems
instantiate them with `Real.pi`, `Real.tan` and `Real.cos`.  `mkutils::flushed` (from
`mkutils.hpp`, the denormal flush) is likewise an argument of the definitions that call it.

The header declares `Resonator::Init` and `Resonator::Process` without bodies; `Resonator.Init`
below follows the written specification of the resonator.
-/

namespace mi

/-- The enum `FrequencyApproximation`. -/
inductive FrequencyApproximation where
  | FREQUENCY_EXACT
  | FREQUENCY_ACCURATE
  | FREQUENCY_FAST
  | FREQUENCY_DIRTY
  deriving DecidableEq, Repr

/-- The enum `FilterMode`. -/
inductive FilterMode where
  | FILTER_MODE_LOW_PASS
  | FILTER_MODE_BAND_PASS
  | FILTER_MODE_BAND_PASS_NORMALIZED
  | FILTER_MODE_HIGH_PASS
  deriving DecidableEq, Repr

/-- The enum `CosineOscillatorMode`. -/
inductive CosineOscillatorMode where
  | COSINE_OSCILLATOR_APPROXIMATE
  | COSINE_OSCILLATOR_EXACT
  deriving DecidableEq, Repr

open FrequencyApproximation FilterMode CosineOscillatorMode

/-! ## The type `float` -/

/-- The integer nearest to a rational, the even one of the two when it lies halfway. -/
def roundNearestEven (x : ℚ) : ℤ :=
  let n := ⌊x⌋
  if x - n < 1 / 2 then n
  else if 1 / 2 < x - n then n + 1
  else if n % 2 = 0 then n
  else n + 1

/-- The `float` nearest to a rational `x`: IEEE 754 binary32, round to nearest, ties to even,
which is what an arithmetic operation on `float` returns for the exact result `x`.  A value
with `2 ^ e ≤ |x| < 2 ^ (e + 1)` is rounded to a multiple of `2 ^ (e - 23)` (24 significant
bits), and below `2 ^ (-126)` to a multiple of `2 ^ (-149)`.  Overflow is not modelled: a
result of magnitude `2 ^ 128` or more stays finite. -/
def roundBinary32 (x : ℚ) : ℚ :=
  let e := max (Int.log 2 |x|) (-126)
  roundNearestEven (x / 2 ^ (e - 23)) * 2 ^ (e - 23)

section Definitions

variable {α : Type} [LinearOrderedField α]

/-! ## OnePole -/

/-- The class `OnePole`: the private members `g_`, `gi_`, `state_`. -/
structure OnePole (α : Type) where
  g_ : α
  gi_ : α
  state_ : α

/-- The function `OnePole::tan<approximation>(f)`.  The macros `M_PI_POW_3`, ...,
`M_PI_POW_11` expand to products of `M_PI`, and `M_PI_F` is `M_PI` converted to `float`. -/
def OnePole.tan (approximation : FrequencyApproximation) (M_PI : α) (tanf : α → α) (f : α) :
    α :=
  match approximation with
  | FREQUENCY_EXACT =>
    -- Clip coefficient to about 100.
    let f := if f < 0.497 then f else 0.497
    tanf (M_PI * f)
  | FREQUENCY_DIRTY =>
    let a := 3.736e-01 * M_PI * M_PI * M_PI
    f * (M_PI + a * f * f)
  | FREQUENCY_FAST =>
    let a := 3.260e-01 * M_PI * M_PI * M_PI
    let b := 1.823e-01 * M_PI * M_PI * M_PI * M_PI * M_PI
    let f2 := f * f
    f * (M_PI + f2 * (a + b * f2))
  | FREQUENCY_ACCURATE =>
    let a := 3.333314036e-01 * M_PI * M_PI * M_PI
    let b := 1.333923995e-01 * M_PI * M_PI * M_PI * M_PI * M_PI
    let c := 5.33740603e-02 * M_PI * M_PI * M_PI * M_PI * M_PI * M_PI * M_PI
    let d := 2.900525e-03 * M_PI * M_PI * M_PI * M_PI * M_PI * M_PI * M_PI * M_PI * M_PI
    let e := 9.5168091e-03 * M_PI * M_PI * M_PI * M_PI * M_PI * M_PI * M_PI * M_PI * M_PI
      * M_PI * M_PI
    let f2 := f * f
    f * (M_PI + f2 * (a + f2 * (b + f2 * (c + f2 * (d + f2 * e)))))

/-- The method `OnePole::Process<mode>(float in)`: returns the output sample and the filter
after the call.  The argument `flushed` is `mkutils::flushed`. -/
def OnePole.Process (mode : FilterMode) (flushed : α → α) (self : OnePole α) (inp : α) :
    α × OnePole α :=
  let lp := (self.g_ * inp + self.state_) * self.gi_
  let self := { self with state_ := flushed (self.g_ * (inp - lp) + lp) }
  if mode = FILTER_MODE_LOW_PASS then
    (lp, self)
  else if mode = FILTER_MODE_HIGH_PASS then
    (inp - lp, self)
  else
    (0, self)

/-- The method `OnePole::Process<mode>(float in)` with the result of every arithmetic operation
passed through `rnd`.  With `rnd` the rounding to `float` this is the computation on `float`
values, operation by operation; with `rnd` the identity it is `OnePole.Process`. -/
def OnePole.ProcessRounded (rnd : α → α) (mode : FilterMode) (flushed : α → α)
    (self : OnePole α) (inp : α) : α × OnePole α :=
  let lp := rnd (rnd (rnd (self.g_ * inp) + self.state_) * self.gi_)
  let self := { self with state_ := flushed (rnd (rnd (self.g_ * rnd (inp - lp)) + lp)) }
  if mode = FILTER_MODE_LOW_PASS then
    (lp, self)
  else if mode = FILTER_MODE_HIGH_PASS then
    (rnd (inp - lp), self)
  else
    (0, self)

/-- The method `OnePole::set_f<approximation>(f)`. -/
def OnePole.set_f (approximation : FrequencyApproximation) (M_PI : α) (tanf : α → α)
    (self : OnePole α) (f : α) : OnePole α :=
  let g_ := OnePole.tan approximation M_PI tanf f
  { self with g_ := g_, gi_ := 1 / (1 + g_) }

/-- The method `OnePole::Reset()`. -/
def OnePole.Reset (self : OnePole α) : OnePole α :=
  { self with state_ := 0 }

/-- The method `OnePole::Init()`. -/
def OnePole.Init (M_PI : α) (tanf : α → α) (self : OnePole α) : OnePole α :=
  (OnePole.set_f FREQUENCY_DIRTY M_PI tanf self 0.01).Reset

/-- The buffer overload `OnePole::Process<mode>(float* in_out, size_t size)`: the `while
(size--)` loop replaces the element under the pointer by the result of the single-sample
`Process` and advances the pointer.  The list `in_out` is the buffer behind the pointer (an
absent element reads as 0); returns the buffer and the filter after the call. -/
def OnePole.ProcessBuffer (mode : FilterMode) (flushed : α → α) :
    OnePole α → List α → Nat → List α × OnePole α
  | self, in_out, 0 => (in_out, self)
  | self, in_out, size + 1 =>
    let r := OnePole.Process mode flushed self (in_out.headD 0)
    let rest := OnePole.ProcessBuffer mode flushed r.2 in_out.tail size
    (r.1 :: rest.1, rest.2)

/-- Specification side of the buffer overload: the filter after the single-sample
`OnePole::Process<mode>` has been called on the samples `xs` in order, the state threaded
through. -/
def OnePole.afterSamples (mode : FilterMode) (flushed : α → α) (self : OnePole α)
    (xs : List α) : OnePole α :=
  xs.foldl (fun s x => (OnePole.Process mode flushed s x).2) self

/-! ## ResonatorSVF -/

/-- The class `ResonatorSVF<batch_size>`: the private arrays `state_1_` and `state_2_`. -/
structure ResonatorSVF (batch_size : Nat) (α : Type) where
  state_1_ : Fin batch_size → α
  state_2_ : Fin batch_size → α

/-- The method `ResonatorSVF::Init()`. -/
def ResonatorSVF.Init {batch_size : Nat} (_self : ResonatorSVF batch_size α) :
    ResonatorSVF batch_size α :=
  { state_1_ := fun _ => 0, state_2_ := fun _ => 0 }

/-- The local arrays `g`, `r`, `r_plus_g`, `h` and `gains` of `ResonatorSVF::Process`, which the
first loop fills once per call and the sample loop only reads. -/
structure ResonatorSVF.Coefficients (batch_size : Nat) (α : Type) where
  g : Fin batch_size → α
  r : Fin batch_size → α
  r_plus_g : Fin batch_size → α
  h : Fin batch_size → α
  gains : Fin batch_size → α

/-- The local variables that the sample loop of `ResonatorSVF::Process` writes: the arrays
`state_1`, `state_2` and the accumulator `s_out`. -/
structure ResonatorSVF.Locals (batch_size : Nat) (α : Type) where
  s_out : α
  state_1 : Fin batch_size → α
  state_2 : Fin batch_size → α

/-- The first loop of `ResonatorSVF::Process` (source lines 173-181), coefficient part. -/
def ResonatorSVF.coefficients {batch_size : Nat} (M_PI : α) (tanf : α → α)
    (f q gain : Fin batch_size → α) : ResonatorSVF.Coefficients batch_size α :=
  let g := fun i => OnePole.tan FREQUENCY_EXACT M_PI tanf (f i)
  let r := fun i => 1 / q i
  { g := g
    r := r
    h := fun i => 1 / (1 + r i * g i + g i * g i)
    r_plus_g := fun i => r i + g i
    gains := fun i => gain i }

/-- One iteration, for mode `i`, of the inner `for` loop of `ResonatorSVF::Process`
(source lines 187-192). -/
def ResonatorSVF.modeStep {batch_size : Nat} (mode : FilterMode)
    (c : ResonatorSVF.Coefficients batch_size α) (s_in : α)
    (l : ResonatorSVF.Locals batch_size α) (i : Fin batch_size) :
    ResonatorSVF.Locals batch_size α :=
  let hp := (s_in - c.r_plus_g i * l.state_1 i - l.state_2 i) * c.h i
  let bp := c.g i * hp + l.state_1 i
  let state_1 := Function.update l.state_1 i (c.g i * hp + bp)
  let lp := c.g i * bp + l.state_2 i
  let state_2 := Function.update l.state_2 i (c.g i * bp + lp)
  { s_out := l.s_out + c.gains i * (if mode = FILTER_MODE_LOW_PASS then lp else bp)
    state_1 := state_1
    state_2 := state_2 }

/-- The body of the `while (size--)` loop of `ResonatorSVF::Process` up to the write to `out`
(source lines 184-193): `s_out` starts at 0 and the modes `0 .. batch_size - 1` are stepped in
order. -/
def ResonatorSVF.sampleStep {batch_size : Nat} (mode : FilterMode)
    (c : ResonatorSVF.Coefficients batch_size α) (s_in : α)
    (l : ResonatorSVF.Locals batch_size α) : ResonatorSVF.Locals batch_size α :=
  (List.finRange batch_size).foldl (ResonatorSVF.modeStep mode c s_in) { l with s_out := 0 }

/-- The `while (size--)` loop of `ResonatorSVF::Process` (source lines 183-199).  `inp` holds
the `size` samples read through `in`; `out` is the buffer behind the pointer `out` as it is
before the call (an absent element reads as 0).  Returns the buffer after the loop, elements
past `size` untouched, and the locals after the last sample. -/
def ResonatorSVF.sampleLoop {batch_size : Nat} (mode : FilterMode) (add : Bool)
    (c : ResonatorSVF.Coefficients batch_size α) :
    List α → List α → ResonatorSVF.Locals batch_size α →
      List α × ResonatorSVF.Locals batch_size α
  | [], out, l => (out, l)
  | s_in :: inp, out, l =>
    let l := ResonatorSVF.sampleStep mode c s_in l
    let o := if add then out.headD 0 + l.s_out else l.s_out
    let rest := ResonatorSVF.sampleLoop mode add c inp out.tail l
    (o :: rest.1, rest.2)

/-- The method `ResonatorSVF::Process<mode, add>(f, q, gain, in, out, size)`, where `size` is
`inp.length`: returns the output buffer and the filter after the call. -/
def ResonatorSVF.Process {batch_size : Nat} (mode : FilterMode) (add : Bool)
    (M_PI : α) (tanf : α → α) (self : ResonatorSVF batch_size α)
    (f q gain : Fin batch_size → α) (inp out : List α) :
    List α × ResonatorSVF batch_size α :=
  let c := ResonatorSVF.coefficients M_PI tanf f q gain
  let l : ResonatorSVF.Locals batch_size α :=
    { s_out := 0, state_1 := fun i => self.state_1_ i, state_2 := fun i => self.state_2_ i }
  let r := ResonatorSVF.sampleLoop mode add c inp out l
  (r.1, { state_1_ := fun i => r.2.state_1 i, state_2_ := fun i => r.2.state_2 i })

/-! ## CosineOscillator -/

/-- The class `CosineOscillator`: the private members. -/
structure CosineOscillator (α : Type) where
  y1_ : α
  y0_ : α
  iir_coefficient_ : α
  initial_amplitude_ : α

/-- The method `CosineOscillator::InitApproximate(frequency)`. -/
def CosineOscillator.InitApproximate (self : CosineOscillator α) (frequency : α) :
    CosineOscillator α :=
  let sign : α := 16
  let frequency := frequency - 0.25
  let (sign, frequency) :=
    if frequency < 0 then
      (sign, -frequency)
    else if frequency > 0.5 then
      (sign, frequency - 0.5)
    else
      (-16, frequency)
  let iir_coefficient_ := sign * frequency * (1 - 2 * frequency)
  { self with
    iir_coefficient_ := iir_coefficient_
    initial_amplitude_ := iir_coefficient_ * 0.25 }

/-- The method `CosineOscillator::Start()`. -/
def CosineOscillator.Start (self : CosineOscillator α) : CosineOscillator α :=
  { self with y1_ := self.initial_amplitude_, y0_ := 0.5 }

/-- The method `CosineOscillator::Init<mode>(frequency)`. -/
def CosineOscillator.Init (mode : CosineOscillatorMode) (M_PI : α) (cosf : α → α)
    (self : CosineOscillator α) (frequency : α) : CosineOscillator α :=
  let self :=
    if mode = COSINE_OSCILLATOR_EXACT then
      self.InitApproximate frequency
    else
      let iir_coefficient_ := 2 * cosf (2 * M_PI * frequency)
      { self with
        iir_coefficient_ := iir_coefficient_
        initial_amplitude_ := iir_coefficient_ * 0.25 }
  self.Start

/-- The method `CosineOscillator::value()`. -/
def CosineOscillator.value (self : CosineOscillator α) : α :=
  self.y1_ + 0.5

/-- The method `CosineOscillator::Next()`: returns the value and the oscillator after the call. -/
def CosineOscillator.Next (self : CosineOscillator α) : α × CosineOscillator α :=
  let temp := self.y0_
  let self := { self with y0_ := self.iir_coefficient_ * self.y0_ - self.y1_ }
  let self := { self with y1_ := temp }
  (temp + 0.5, self)

/-- The oscillator after `k` calls of `Next()`. -/
def CosineOscillator.afterNext (self : CosineOscillator α) : Nat → CosineOscillator α
  | 0 => self
  | k + 1 => (self.afterNext k).Next.2

/-- The value returned by the `n`-th call of `Next()`, counting from `n = 0`. -/
def CosineOscillator.nthNext (self : CosineOscillator α) (n : Nat) : α :=
  (self.afterNext n).Next.1

/-! ## Resonator -/

/-- The constant `kMaxNumModes`. -/
def kMaxNumModes : Nat := 128

/-- The constant `kModeBatchSize`. -/
def kModeBatchSize : Nat := 4

/-- The class `Resonator`: the private members `resolution_`, `mode_amplitude_` and
`mode_filters_`. -/
structure Resonator (α : Type) where
  resolution_ : Int
  mode_amplitude_ : Fin kMaxNumModes → α
  mode_filters_ : Fin (kMaxNumModes / kModeBatchSize) → ResonatorSVF kModeBatchSize α

/-- Modelled from the spec: the body of `Resonator::Init(position, resolution)`, which the
header only declares.  The spec says that it "stores resolution (clamped ≤128) and position;
precomputes any position-dependent static per-mode attenuation".  The clamp is the minimum with
`kMaxNumModes`; the attenuation, which the spec does not give, is the argument `attenuation`,
and the class has no member for the position itself. -/
def Resonator.Init (attenuation : α → Fin kMaxNumModes → α) (self : Resonator α)
    (position : α) (resolution : Int) : Resonator α :=
  { self with
    resolution_ := min resolution kMaxNumModes
    mode_amplitude_ := attenuation position }

end Definitions

/-! ## Theorems -/

section Generic

variable {α : Type} [LinearOrderedField α]

/-! ### OnePole: low-pass plus high-pass -/

/-- C3, amended. In exact arithmetic (any ordered field, the reals among them): from one and
the same filter state, the sample returned by `OnePole::Process<FILTER_MODE_LOW_PASS>` plus the
sample returned by `OnePole::Process<FILTER_MODE_HIGH_PASS>` for the input `x` is `x`. -/
theorem onePole_lowpass_add_highpass (flushed : α → α) (self : OnePole α) (x : α) :
    (OnePole.Process FILTER_MODE_LOW_PASS flushed self x).1
      + (OnePole.Process FILTER_MODE_HIGH_PASS flushed self x).1 = x := by
  have hlp : (OnePole.Process FILTER_MODE_LOW_PASS flushed self x).1
      = (self.g_ * x + self.state_) * self.gi_ := by
    simp [OnePole.Process]
  have hhp : (OnePole.Process FILTER_MODE_HIGH_PASS flushed self x).1
      = x - (self.g_ * x + self.state_) * self.gi_ := by
    simp [OnePole.Process]
  rw [hlp, hhp]
  ring

/-! ### CosineOscillator: restart -/

theorem CosineOscillator.afterNext_iir (self : CosineOscillator α) (k : Nat) :
    (self.afterNext k).iir_coefficient_ = self.iir_coefficient_ := by
  induction k with
  | zero => rfl
  | succ k ih => simpa [CosineOscillator.afterNext, CosineOscillator.Next] using ih

theorem CosineOscillator.afterNext_initial_amplitude (self : CosineOscillator α) (k : Nat) :
    (self.afterNext k).initial_amplitude_ = self.initial_amplitude_ := by
  induction k with
  | zero => rfl
  | succ k ih => simpa [CosineOscillator.afterNext, CosineOscillator.Next] using ih

theorem CosineOscillator.start_afterNext (self : CosineOscillator α) (k : Nat) :
    (self.afterNext k).Start = self.Start := by
  have h1 := self.afterNext_iir k
  have h2 := self.afterNext_initial_amplitude k
  simp [CosineOscillator.Start, h1, h2]

/-- C7. `Start()` leaves `iir_coefficient_` and `initial_amplitude_` as they are, and the
`n`-th value that `Next()` returns after `k` calls of `Next()` followed by `Start()` is the
`n`-th value it returns after `Start()` alone. -/
theorem cosineOscillator_restart (self : CosineOscillator α) (k n : Nat) :
    self.Start.iir_coefficient_ = self.iir_coefficient_
      ∧ self.Start.initial_amplitude_ = self.initial_amplitude_
      ∧ ((self.afterNext k).Start).nthNext n = self.Start.nthNext n := by
  refine ⟨rfl, rfl, ?_⟩
  rw [CosineOscillator.start_afterNext]

/-! ### ResonatorSVF: the sample loop -/

theorem ResonatorSVF.sampleLoop_append {B : Nat} (mode : FilterMode) (add : Bool)
    (c : ResonatorSVF.Coefficients B α) (in1 in2 out : List α) (l : ResonatorSVF.Locals B α) :
    ResonatorSVF.sampleLoop mode add c (in1 ++ in2) out l =
      ((ResonatorSVF.sampleLoop mode add c in1 out l).1.take in1.length
        ++ (ResonatorSVF.sampleLoop mode add c in2
            ((ResonatorSVF.sampleLoop mode add c in1 out l).1.drop in1.length)
            (ResonatorSVF.sampleLoop mode add c in1 out l).2).1,
       (ResonatorSVF.sampleLoop mode add c in2
            ((ResonatorSVF.sampleLoop mode add c in1 out l).1.drop in1.length)
            (ResonatorSVF.sampleLoop mode add c in1 out l).2).2) := by
  induction in1 generalizing out l with
  | nil => simp [ResonatorSVF.sampleLoop]
  | cons x xs ih =>
    have h := ih out.tail (ResonatorSVF.sampleStep mode c x l)
    rw [List.cons_append]
    simp only [ResonatorSVF.sampleLoop, List.length_cons, List.take_succ_cons,
      List.drop_succ_cons, h, List.cons_append]

theorem ResonatorSVF.sampleLoop_s_out {B : Nat} (mode : FilterMode) (add : Bool)
    (c : ResonatorSVF.Coefficients B α) (inp out : List α) (l : ResonatorSVF.Locals B α)
    (x : α) :
    (ResonatorSVF.sampleLoop mode add c inp out { l with s_out := x }).1
        = (ResonatorSVF.sampleLoop mode add c inp out l).1
      ∧ (ResonatorSVF.sampleLoop mode add c inp out { l with s_out := x }).2.state_1
        = (ResonatorSVF.sampleLoop mode add c inp out l).2.state_1
      ∧ (ResonatorSVF.sampleLoop mode add c inp out { l with s_out := x }).2.state_2
        = (ResonatorSVF.sampleLoop mode add c inp out l).2.state_2 := by
  cases inp with
  | nil => simp [ResonatorSVF.sampleLoop]
  | cons s_in inp => simp [ResonatorSVF.sampleLoop, ResonatorSVF.sampleStep]

theorem ResonatorSVF.Process_append {B : Nat} (mode : FilterMode) (add : Bool)
    (M_PI : α) (tanf : α → α) (self : ResonatorSVF B α) (f q gain : Fin B → α)
    (in1 in2 out : List α) :
    ResonatorSVF.Process mode add M_PI tanf self f q gain (in1 ++ in2) out =
      ((ResonatorSVF.Process mode add M_PI tanf self f q gain in1 out).1.take in1.length
        ++ (ResonatorSVF.Process mode add M_PI tanf
            (ResonatorSVF.Process mode add M_PI tanf self f q gain in1 out).2 f q gain in2
            ((ResonatorSVF.Process mode add M_PI tanf self f q gain in1 out).1.drop
              in1.length)).1,
       (ResonatorSVF.Process mode add M_PI tanf
            (ResonatorSVF.Process mode add M_PI tanf self f q gain in1 out).2 f q gain in2
            ((ResonatorSVF.Process mode add M_PI tanf self f q gain in1 out).1.drop
              in1.length)).2) := by
  simp only [ResonatorSVF.Process]
  rw [ResonatorSVF.sampleLoop_append]
  obtain ⟨h1, h2, h3⟩ := ResonatorSVF.sampleLoop_s_out mode add
    (ResonatorSVF.coefficients M_PI tanf f q gain) in2
    ((ResonatorSVF.sampleLoop mode add (ResonatorSVF.coefficients M_PI tanf f q gain) in1 out
      { s_out := 0, state_1 := fun i => self.state_1_ i,
        state_2 := fun i => self.state_2_ i }).1.drop in1.length)
    (ResonatorSVF.sampleLoop mode add (ResonatorSVF.coefficients M_PI tanf f q gain) in1 out
      { s_out := 0, state_1 := fun i => self.state_1_ i,
        state_2 := fun i => self.state_2_ i }).2 0
  simp only [h1, h2, h3]

/-- C2. A non-accumulating call of `ResonatorSVF::Process` over the samples `in1 ++ in2` leaves
the output buffer and the filter state that the call over `in1` followed by the call over
`in2` (on the part of the buffer past the first `in1.length` samples, with the same `f`, `q`
and `gain`) leave. -/
theorem resonatorSVF_block_splitting {B : Nat} (mode : FilterMode)
    (M_PI : α) (tanf : α → α) (self : ResonatorSVF B α) (f q gain : Fin B → α)
    (in1 in2 out : List α) :
    (ResonatorSVF.Process mode false M_PI tanf self f q gain (in1 ++ in2) out).1 =
        (ResonatorSVF.Process mode false M_PI tanf self f q gain in1 out).1.take in1.length
        ++ (ResonatorSVF.Process mode false M_PI tanf
            (ResonatorSVF.Process mode false M_PI tanf self f q gain in1 out).2 f q gain in2
            ((ResonatorSVF.Process mode false M_PI tanf self f q gain in1 out).1.drop
              in1.length)).1
      ∧ (ResonatorSVF.Process mode false M_PI tanf self f q gain (in1 ++ in2) out).2 =
        (ResonatorSVF.Process mode false M_PI tanf
            (ResonatorSVF.Process mode false M_PI tanf self f q gain in1 out).2 f q gain in2
            ((ResonatorSVF.Process mode false M_PI tanf self f q gain in1 out).1.drop
              in1.length)).2 := by
  rw [ResonatorSVF.Process_append]
  exact ⟨rfl, rfl⟩

/-! ### ResonatorSVF: one sample, mode by mode -/

/-- The value that an iteration of the inner loop writes to `state_1[i]`. -/
theorem ResonatorSVF.modeStep_state_1_self {B : Nat} (mode : FilterMode)
    (c : ResonatorSVF.Coefficients B α) (s_in : α) (l : ResonatorSVF.Locals B α) (i : Fin B) :
    (ResonatorSVF.modeStep mode c s_in l i).state_1 i =
      c.g i * ((s_in - c.r_plus_g i * l.state_1 i - l.state_2 i) * c.h i)
        + (c.g i * ((s_in - c.r_plus_g i * l.state_1 i - l.state_2 i) * c.h i)
          + l.state_1 i) := by
  simp [ResonatorSVF.modeStep]

/-- The value that an iteration of the inner loop writes to `state_2[i]`. -/
theorem ResonatorSVF.modeStep_state_2_self {B : Nat} (mode : FilterMode)
    (c : ResonatorSVF.Coefficients B α) (s_in : α) (l : ResonatorSVF.Locals B α) (i : Fin B) :
    (ResonatorSVF.modeStep mode c s_in l i).state_2 i =
      c.g i * (c.g i * ((s_in - c.r_plus_g i * l.state_1 i - l.state_2 i) * c.h i)
          + l.state_1 i)
        + (c.g i * (c.g i * ((s_in - c.r_plus_g i * l.state_1 i - l.state_2 i) * c.h i)
          + l.state_1 i) + l.state_2 i) := by
  simp [ResonatorSVF.modeStep]

theorem ResonatorSVF.modeStep_state_other {B : Nat} (mode : FilterMode)
    (c : ResonatorSVF.Coefficients B α) (s_in : α) (l : ResonatorSVF.Locals B α)
    (i j : Fin B) (hji : j ≠ i) :
    (ResonatorSVF.modeStep mode c s_in l i).state_1 j = l.state_1 j
      ∧ (ResonatorSVF.modeStep mode c s_in l i).state_2 j = l.state_2 j := by
  simp [ResonatorSVF.modeStep, Function.update_noteq hji]

/-- Stepping the modes of a duplicate-free index list leaves, at every index `j` of the list,
the values that the single step for `j` computes from the old state of mode `j`, and leaves
the other indices alone. -/
theorem ResonatorSVF.foldl_modeStep_state {B : Nat} (mode : FilterMode)
    (c : ResonatorSVF.Coefficients B α) (s_in : α) (is : List (Fin B)) (hnd : is.Nodup)
    (l : ResonatorSVF.Locals B α) (j : Fin B) :
    (is.foldl (ResonatorSVF.modeStep mode c s_in) l).state_1 j
        = (if j ∈ is then (ResonatorSVF.modeStep mode c s_in l j).state_1 j else l.state_1 j)
      ∧ (is.foldl (ResonatorSVF.modeStep mode c s_in) l).state_2 j
        = (if j ∈ is then (ResonatorSVF.modeStep mode c s_in l j).state_2 j
            else l.state_2 j) := by
  induction is generalizing l with
  | nil => simp
  | cons i is ih =>
    obtain ⟨hi, hnd'⟩ := List.nodup_cons.mp hnd
    have h := ih hnd' (ResonatorSVF.modeStep mode c s_in l i)
    rw [List.foldl_cons, h.1, h.2]
    by_cases hji : j = i
    · subst hji
      simp [hi]
    · obtain ⟨h1, h2⟩ := ResonatorSVF.modeStep_state_other mode c s_in l i j hji
      simp only [List.mem_cons, hji, false_or]
      by_cases hj : j ∈ is
      · simp only [hj, if_true]
        rw [ResonatorSVF.modeStep_state_1_self, ResonatorSVF.modeStep_state_2_self,
          ResonatorSVF.modeStep_state_1_self, ResonatorSVF.modeStep_state_2_self, h1, h2]
        exact ⟨rfl, rfl⟩
      · simp only [hj, if_false]
        exact ⟨h1, h2⟩

/-- What one pass of the sample-loop body leaves in `state_1[i]` and `state_2[i]`. -/
theorem ResonatorSVF.sampleStep_state {B : Nat} (mode : FilterMode)
    (c : ResonatorSVF.Coefficients B α) (s_in : α) (l : ResonatorSVF.Locals B α) (i : Fin B) :
    (ResonatorSVF.sampleStep mode c s_in l).state_1 i =
        c.g i * ((s_in - c.r_plus_g i * l.state_1 i - l.state_2 i) * c.h i)
          + (c.g i * ((s_in - c.r_plus_g i * l.state_1 i - l.state_2 i) * c.h i)
            + l.state_1 i)
      ∧ (ResonatorSVF.sampleStep mode c s_in l).state_2 i =
        c.g i * (c.g i * ((s_in - c.r_plus_g i * l.state_1 i - l.state_2 i) * c.h i)
            + l.state_1 i)
          + (c.g i * (c.g i * ((s_in - c.r_plus_g i * l.state_1 i - l.state_2 i) * c.h i)
            + l.state_1 i) + l.state_2 i) := by
  have h := ResonatorSVF.foldl_modeStep_state mode c s_in (List.finRange B)
    (List.nodup_finRange B) { l with s_out := 0 } i
  simp only [List.mem_finRange, if_true] at h
  rw [ResonatorSVF.sampleStep, h.1, h.2, ResonatorSVF.modeStep_state_1_self,
    ResonatorSVF.modeStep_state_2_self]
  exact ⟨rfl, rfl⟩

/-- The zero-input update of one mode does not increase `state_1 ^ 2 + state_2 ^ 2`: the
decrease is `4 r g (state_1 - g state_2) ^ 2 / (1 + r g + g g) ^ 2`. -/
theorem ResonatorSVF.zero_input_energy (g r s1 s2 : α) (hg : 0 ≤ g) (hr : 0 ≤ r) :
    (g * ((0 - (r + g) * s1 - s2) * (1 / (1 + r * g + g * g)))
        + (g * ((0 - (r + g) * s1 - s2) * (1 / (1 + r * g + g * g))) + s1)) ^ 2
      + (g * (g * ((0 - (r + g) * s1 - s2) * (1 / (1 + r * g + g * g))) + s1)
        + (g * (g * ((0 - (r + g) * s1 - s2) * (1 / (1 + r * g + g * g))) + s1) + s2)) ^ 2
      ≤ s1 ^ 2 + s2 ^ 2 := by
  have hD : 0 < 1 + r * g + g * g := by positivity
  have key : s1 ^ 2 + s2 ^ 2
      - ((g * ((0 - (r + g) * s1 - s2) * (1 / (1 + r * g + g * g)))
        + (g * ((0 - (r + g) * s1 - s2) * (1 / (1 + r * g + g * g))) + s1)) ^ 2
      + (g * (g * ((0 - (r + g) * s1 - s2) * (1 / (1 + r * g + g * g))) + s1)
        + (g * (g * ((0 - (r + g) * s1 - s2) * (1 / (1 + r * g + g * g))) + s1) + s2)) ^ 2)
      = 4 * r * g * (s1 - g * s2) ^ 2 / (1 + r * g + g * g) ^ 2 := by
    field_simp
    ring
  have hnn : 0 ≤ 4 * r * g * (s1 - g * s2) ^ 2 / (1 + r * g + g * g) ^ 2 := by positivity
  linarith

end Generic

section RealArithmetic

/-! ### The exact tangent tier over the reals -/

theorem OnePole.tan_exact_eq (f : ℝ) :
    OnePole.tan FREQUENCY_EXACT Real.pi Real.tan f = Real.tan (Real.pi * min f 0.497) := by
  unfold OnePole.tan
  by_cases h : f < 0.497
  · simp [h, min_eq_left h.le]
  · simp [h, min_eq_right (not_lt.mp h)]

theorem OnePole.clip_lt_half (f : ℝ) : Real.pi * min f 0.497 < Real.pi / 2 := by
  have hpi := Real.pi_pos
  have h : min f 0.497 ≤ 0.497 := min_le_right _ _
  have h2 : Real.pi * min f 0.497 ≤ Real.pi * 0.497 := mul_le_mul_of_nonneg_left h hpi.le
  have h3 : Real.pi * 0.497 < Real.pi / 2 := by linarith
  linarith

theorem OnePole.tan_exact_nonneg (f : ℝ) (hf : 0 ≤ f) :
    0 ≤ OnePole.tan FREQUENCY_EXACT Real.pi Real.tan f := by
  rw [OnePole.tan_exact_eq]
  have hm : 0 ≤ min f 0.497 := le_min hf (by norm_num)
  exact Real.tan_nonneg_of_nonneg_of_le_pi_div_two (mul_nonneg Real.pi_pos.le hm)
    (OnePole.clip_lt_half f).le

/-! ### ResonatorSVF: zero input -/

theorem ResonatorSVF.sampleStep_zero_energy {B : Nat} (mode : FilterMode)
    (f q gain : Fin B → ℝ) (i : Fin B) (hf : 0 ≤ f i) (hq : 0 ≤ q i)
    (l : ResonatorSVF.Locals B ℝ) :
    (ResonatorSVF.sampleStep mode
          (ResonatorSVF.coefficients Real.pi Real.tan f q gain) 0 l).state_1 i ^ 2
        + (ResonatorSVF.sampleStep mode
          (ResonatorSVF.coefficients Real.pi Real.tan f q gain) 0 l).state_2 i ^ 2
      ≤ l.state_1 i ^ 2 + l.state_2 i ^ 2 := by
  obtain ⟨h1, h2⟩ := ResonatorSVF.sampleStep_state mode
    (ResonatorSVF.coefficients Real.pi Real.tan f q gain) 0 l i
  rw [h1, h2]
  have hg := OnePole.tan_exact_nonneg (f i) hf
  have hr : 0 ≤ 1 / q i := one_div_nonneg.mpr hq
  exact ResonatorSVF.zero_input_energy _ _ _ _ hg hr

theorem ResonatorSVF.sampleLoop_zero_energy {B : Nat} (mode : FilterMode) (add : Bool)
    (f q gain : Fin B → ℝ) (i : Fin B) (hf : 0 ≤ f i) (hq : 0 ≤ q i)
    (inp out : List ℝ) (hz : ∀ x ∈ inp, x = 0) (l : ResonatorSVF.Locals B ℝ) :
    (ResonatorSVF.sampleLoop mode add
          (ResonatorSVF.coefficients Real.pi Real.tan f q gain) inp out l).2.state_1 i ^ 2
        + (ResonatorSVF.sampleLoop mode add
          (ResonatorSVF.coefficients Real.pi Real.tan f q gain) inp out l).2.state_2 i ^ 2
      ≤ l.state_1 i ^ 2 + l.state_2 i ^ 2 := by
  induction inp generalizing out l with
  | nil => simp [ResonatorSVF.sampleLoop]
  | cons x xs ih =>
    have hx : x = 0 := hz x (List.mem_cons_self x xs)
    subst hx
    have hxs : ∀ y ∈ xs, y = 0 := fun y hy => hz y (List.mem_cons_of_mem _ hy)
    simp only [ResonatorSVF.sampleLoop]
    exact le_trans (ih out.tail hxs _)
      (ResonatorSVF.sampleStep_zero_energy mode f q gain i hf hq l)

/-- C1. For a mode `i` with `0 ≤ f[i] < 0.5` and `q[i] ≥ 0.5`, in exact real arithmetic: every
pass of the sample loop of `ResonatorSVF::Process` with input sample 0 leaves
`state_1[i]^2 + state_2[i]^2` at most what it was before that sample, whatever the state; and a
call whose input samples are all 0, of any length, leaves
`state_1_[i]^2 + state_2_[i]^2` at most what it was before the call. -/
theorem resonatorSVF_zero_input_stable {B : Nat} (mode : FilterMode) (add : Bool)
    (f q gain : Fin B → ℝ) (i : Fin B) (hf0 : 0 ≤ f i) (_hf1 : f i < 0.5) (hq : 0.5 ≤ q i) :
    (∀ l : ResonatorSVF.Locals B ℝ,
        (ResonatorSVF.sampleStep mode
            (ResonatorSVF.coefficients Real.pi Real.tan f q gain) 0 l).state_1 i ^ 2
          + (ResonatorSVF.sampleStep mode
            (ResonatorSVF.coefficients Real.pi Real.tan f q gain) 0 l).state_2 i ^ 2
        ≤ l.state_1 i ^ 2 + l.state_2 i ^ 2)
      ∧ (∀ (self : ResonatorSVF B ℝ) (inp out : List ℝ), (∀ x ∈ inp, x = 0) →
        (ResonatorSVF.Process mode add Real.pi Real.tan self f q gain inp out).2.state_1_ i ^ 2
          + (ResonatorSVF.Process mode add Real.pi Real.tan self f q gain inp out).2.state_2_ i
            ^ 2
        ≤ self.state_1_ i ^ 2 + self.state_2_ i ^ 2) := by
  have hq0 : 0 ≤ q i := le_trans (by norm_num) hq
  refine ⟨fun l => ResonatorSVF.sampleStep_zero_energy mode f q gain i hf0 hq0 l, ?_⟩
  intro self inp out hz
  exact ResonatorSVF.sampleLoop_zero_energy mode add f q gain i hf0 hq0 inp out hz
    { s_out := 0, state_1 := fun i => self.state_1_ i, state_2 := fun i => self.state_2_ i }

/-- Witness for C1: one mode with `f = 1/4`, `q = 1`, state `(1, 2)` and three zero input
samples. -/
theorem resonatorSVF_zero_input_stable_witness :
    (0 : ℝ) ≤ 1 / 4 ∧ (1 / 4 : ℝ) < 0.5 ∧ (0.5 : ℝ) ≤ 1
      ∧ (ResonatorSVF.Process FILTER_MODE_BAND_PASS false Real.pi Real.tan
            (⟨fun _ => 1, fun _ => 2⟩ : ResonatorSVF 1 ℝ) (fun _ => 1 / 4) (fun _ => 1)
            (fun _ => 1) [0, 0, 0] []).2.state_1_ 0 ^ 2
          + (ResonatorSVF.Process FILTER_MODE_BAND_PASS false Real.pi Real.tan
            (⟨fun _ => 1, fun _ => 2⟩ : ResonatorSVF 1 ℝ) (fun _ => 1 / 4) (fun _ => 1)
            (fun _ => 1) [0, 0, 0] []).2.state_2_ 0 ^ 2
        ≤ (1 : ℝ) ^ 2 + 2 ^ 2 :=
  ⟨by norm_num, by norm_num, by norm_num,
    (resonatorSVF_zero_input_stable (B := 1) FILTER_MODE_BAND_PASS false
      (fun _ => 1 / 4) (fun _ => 1) (fun _ => 1) 0 (by norm_num) (by norm_num)
      (by norm_num)).2 ⟨fun _ => 1, fun _ => 2⟩ [0, 0, 0] [] (by simp)⟩

/-! ### The tangent tiers: monotonicity and clipping -/

/-- An odd polynomial `f * P (f * f)` with `P` positive and monotone on the nonnegative reals
is strictly increasing there. -/
theorem OnePole.mul_even_strictMono (P : ℝ → ℝ) (hpos : ∀ u, 0 ≤ u → 0 < P u)
    (hmono : ∀ u v, 0 ≤ u → u ≤ v → P u ≤ P v) (f1 f2 : ℝ) (h0 : 0 ≤ f1)
    (h12 : f1 < f2) :
    f1 * P (f1 * f1) < f2 * P (f2 * f2) := by
  have hu : 0 ≤ f1 * f1 := mul_nonneg h0 h0
  have huv : f1 * f1 ≤ f2 * f2 := mul_le_mul h12.le h12.le h0 (h0.trans h12.le)
  exact mul_lt_mul h12 (hmono _ _ hu huv) (hpos _ hu) (h0.trans h12.le)

theorem OnePole.tan_dirty_strictMono (tanf : ℝ → ℝ) (f1 f2 : ℝ) (h0 : 0 ≤ f1)
    (h12 : f1 < f2) :
    OnePole.tan FREQUENCY_DIRTY Real.pi tanf f1
      < OnePole.tan FREQUENCY_DIRTY Real.pi tanf f2 := by
  have hpi := Real.pi_pos
  have h := OnePole.mul_even_strictMono
    (fun u => Real.pi + 3.736e-01 * Real.pi * Real.pi * Real.pi * u)
    (fun u hu => by dsimp only; positivity)
    (fun u v hu huv => by have hv : 0 ≤ v := hu.trans huv; dsimp only; gcongr) f1 f2 h0 h12
  simp only [OnePole.tan]
  calc f1 * (Real.pi + 3.736e-01 * Real.pi * Real.pi * Real.pi * f1 * f1)
      = f1 * (Real.pi + 3.736e-01 * Real.pi * Real.pi * Real.pi * (f1 * f1)) := by ring
    _ < f2 * (Real.pi + 3.736e-01 * Real.pi * Real.pi * Real.pi * (f2 * f2)) := h
    _ = f2 * (Real.pi + 3.736e-01 * Real.pi * Real.pi * Real.pi * f2 * f2) := by ring

theorem OnePole.tan_fast_strictMono (tanf : ℝ → ℝ) (f1 f2 : ℝ) (h0 : 0 ≤ f1)
    (h12 : f1 < f2) :
    OnePole.tan FREQUENCY_FAST Real.pi tanf f1
      < OnePole.tan FREQUENCY_FAST Real.pi tanf f2 := by
  have hpi := Real.pi_pos
  exact OnePole.mul_even_strictMono
    (fun u => Real.pi + u * (3.260e-01 * Real.pi * Real.pi * Real.pi
      + 1.823e-01 * Real.pi * Real.pi * Real.pi * Real.pi * Real.pi * u))
    (fun u hu => by dsimp only; positivity)
    (fun u v hu huv => by have hv : 0 ≤ v := hu.trans huv; dsimp only; gcongr) f1 f2 h0 h12

theorem OnePole.tan_accurate_strictMono (tanf : ℝ → ℝ) (f1 f2 : ℝ) (h0 : 0 ≤ f1)
    (h12 : f1 < f2) :
    OnePole.tan FREQUENCY_ACCURATE Real.pi tanf f1
      < OnePole.tan FREQUENCY_ACCURATE Real.pi tanf f2 := by
  have hpi := Real.pi_pos
  exact OnePole.mul_even_strictMono
    (fun u => Real.pi + u * (3.333314036e-01 * Real.pi * Real.pi * Real.pi
      + u * (1.333923995e-01 * Real.pi * Real.pi * Real.pi * Real.pi * Real.pi
      + u * (5.33740603e-02 * Real.pi * Real.pi * Real.pi * Real.pi * Real.pi * Real.pi * Real.pi
      + u * (2.900525e-03 * Real.pi * Real.pi * Real.pi * Real.pi * Real.pi * Real.pi * Real.pi
          * Real.pi * Real.pi
      + u * (9.5168091e-03 * Real.pi * Real.pi * Real.pi * Real.pi * Real.pi * Real.pi * Real.pi
          * Real.pi * Real.pi * Real.pi * Real.pi))))))
    (fun u hu => by dsimp only; positivity)
    (fun u v hu huv => by have hv : 0 ≤ v := hu.trans huv; dsimp only; gcongr) f1 f2 h0 h12

/-- C8. In exact real arithmetic, each polynomial tier of `OnePole::tan` (`FREQUENCY_DIRTY`,
`FREQUENCY_FAST`, `FREQUENCY_ACCURATE`) is strictly increasing on `[0, 0.5)`: for
`0 ≤ f1 < f2 < 0.5`, `tan<tier>(f1) < tan<tier>(f2)`. -/
theorem onePole_tan_polynomial_strictMono (tier : FrequencyApproximation)
    (htier : tier = FREQUENCY_DIRTY ∨ tier = FREQUENCY_FAST ∨ tier = FREQUENCY_ACCURATE)
    (f1 f2 : ℝ) (h0 : 0 ≤ f1) (h12 : f1 < f2) (_h2 : f2 < 0.5) :
    OnePole.tan tier Real.pi Real.tan f1 < OnePole.tan tier Real.pi Real.tan f2 := by
  rcases htier with h | h | h
  · subst h
    exact OnePole.tan_dirty_strictMono Real.tan f1 f2 h0 h12
  · subst h
    exact OnePole.tan_fast_strictMono Real.tan f1 f2 h0 h12
  · subst h
    exact OnePole.tan_accurate_strictMono Real.tan f1 f2 h0 h12

/-- Witness for C8: the `FREQUENCY_FAST` tier at `f1 = 0.1`, `f2 = 0.2`. -/
theorem onePole_tan_polynomial_strictMono_witness :
    (0 : ℝ) ≤ 0.1 ∧ (0.1 : ℝ) < 0.2 ∧ (0.2 : ℝ) < 0.5
      ∧ OnePole.tan FREQUENCY_FAST Real.pi Real.tan 0.1
        < OnePole.tan FREQUENCY_FAST Real.pi Real.tan 0.2 :=
  ⟨by norm_num, by norm_num, by norm_num,
    onePole_tan_polynomial_strictMono FREQUENCY_FAST (Or.inr (Or.inl rfl)) 0.1 0.2
      (by norm_num) (by norm_num) (by norm_num)⟩

/-- Counterexample for C9: `0.498 < 0.499` both lie in `(0, 0.5)`, but the exact tier clips
both to 0.497, so `tan<FREQUENCY_EXACT>(0.498) < tan<FREQUENCY_EXACT>(0.499)` fails. -/
theorem onePole_tan_exact_not_strictMono :
    (0 : ℝ) < 0.498 ∧ (0.498 : ℝ) < 0.499 ∧ (0.499 : ℝ) < 0.5
      ∧ ¬ (OnePole.tan FREQUENCY_EXACT Real.pi Real.tan 0.498
        < OnePole.tan FREQUENCY_EXACT Real.pi Real.tan 0.499) := by
  refine ⟨by norm_num, by norm_num, by norm_num, ?_⟩
  rw [OnePole.tan_exact_eq, OnePole.tan_exact_eq]
  have h1 : min (0.498 : ℝ) 0.497 = 0.497 := min_eq_right (by norm_num)
  have h2 : min (0.499 : ℝ) 0.497 = 0.497 := min_eq_right (by norm_num)
  rw [h1, h2]
  exact lt_irrefl _

/-- C9, amended. In exact real arithmetic, `OnePole::tan<FREQUENCY_EXACT>` is strictly
increasing below the clip: for `f1 < f2` in `(0, 0.5)` with `f1 < 0.497`,
`tan<FREQUENCY_EXACT>(f1) < tan<FREQUENCY_EXACT>(f2)`. -/
theorem onePole_tan_exact_strictMono_below_clip (f1 f2 : ℝ) (h0 : 0 < f1) (h12 : f1 < f2)
    (_h2 : f2 < 0.5) (hclip : f1 < 0.497) :
    OnePole.tan FREQUENCY_EXACT Real.pi Real.tan f1
      < OnePole.tan FREQUENCY_EXACT Real.pi Real.tan f2 := by
  rw [OnePole.tan_exact_eq, OnePole.tan_exact_eq]
  have hpi := Real.pi_pos
  have hm1 : min f1 0.497 = f1 := min_eq_left hclip.le
  have hlt : min f1 0.497 < min f2 0.497 := by
    rw [hm1]
    exact lt_min h12 hclip
  apply Real.tan_lt_tan_of_lt_of_lt_pi_div_two
  · rw [hm1]
    have : 0 < Real.pi * f1 := mul_pos hpi h0
    linarith
  · exact OnePole.clip_lt_half f2
  · exact mul_lt_mul_of_pos_left hlt hpi

/-- Witness for the amended C9 at `f1 = 0.1`, `f2 = 0.499`. -/
theorem onePole_tan_exact_strictMono_below_clip_witness :
    (0 : ℝ) < 0.1 ∧ (0.1 : ℝ) < 0.499 ∧ (0.499 : ℝ) < 0.5 ∧ (0.1 : ℝ) < 0.497
      ∧ OnePole.tan FREQUENCY_EXACT Real.pi Real.tan 0.1
        < OnePole.tan FREQUENCY_EXACT Real.pi Real.tan 0.499 :=
  ⟨by norm_num, by norm_num, by norm_num, by norm_num,
    onePole_tan_exact_strictMono_below_clip 0.1 0.499 (by norm_num) (by norm_num)
      (by norm_num) (by norm_num)⟩

/-- C10. In exact real arithmetic, `OnePole::tan<FREQUENCY_EXACT>(f)` is
`tan(pi * min(f, 0.497))` for every `f`; for `f ≥ 0` it lies in `[0, tan(0.497 * pi)]`; and
for `f ≥ 0.497` it is `tan(0.497 * pi)`. -/
theorem onePole_tan_exact_clipped (f : ℝ) :
    OnePole.tan FREQUENCY_EXACT Real.pi Real.tan f = Real.tan (Real.pi * min f 0.497)
      ∧ (0 ≤ f → 0 ≤ OnePole.tan FREQUENCY_EXACT Real.pi Real.tan f
          ∧ OnePole.tan FREQUENCY_EXACT Real.pi Real.tan f ≤ Real.tan (0.497 * Real.pi))
      ∧ (0.497 ≤ f →
          OnePole.tan FREQUENCY_EXACT Real.pi Real.tan f = Real.tan (0.497 * Real.pi)) := by
  have hpi := Real.pi_pos
  refine ⟨OnePole.tan_exact_eq f, fun hf => ⟨OnePole.tan_exact_nonneg f hf, ?_⟩,
    fun hf => ?_⟩
  · rw [OnePole.tan_exact_eq]
    rcases (min_le_right f (0.497 : ℝ)).lt_or_eq with hlt | heq
    · have hm : 0 ≤ min f 0.497 := le_min hf (by norm_num)
      refine (Real.tan_lt_tan_of_nonneg_of_lt_pi_div_two (mul_nonneg hpi.le hm) ?_ ?_).le
      · linarith
      · rw [mul_comm (0.497 : ℝ)]
        exact mul_lt_mul_of_pos_left hlt hpi
    · rw [heq, mul_comm]
  · rw [OnePole.tan_exact_eq, min_eq_right hf, mul_comm]

/-- Witness for C10 at `f = 0.6`, which is both nonnegative and past the clip. -/
theorem onePole_tan_exact_clipped_witness :
    (0 : ℝ) ≤ 0.6 ∧ (0.497 : ℝ) ≤ 0.6
      ∧ 0 ≤ OnePole.tan FREQUENCY_EXACT Real.pi Real.tan 0.6
      ∧ OnePole.tan FREQUENCY_EXACT Real.pi Real.tan 0.6 = Real.tan (0.497 * Real.pi) :=
  ⟨by norm_num, by norm_num,
    ((onePole_tan_exact_clipped 0.6).2.1 (by norm_num)).1,
    (onePole_tan_exact_clipped 0.6).2.2 (by norm_num)⟩

/-! ### CosineOscillator: the recurrence over the reals -/

/-- With `iir_coefficient_ = 2 cos t` and `initial_amplitude_ = 0.5 cos t`, after `Start()` and
`n` calls of `Next()` the pair `(y0_, y1_)` is `(0.5 cos (n t), 0.5 cos (n t - t))`. -/
theorem CosineOscillator.afterNext_start_cos (self : CosineOscillator ℝ) (t : ℝ)
    (hc : self.iir_coefficient_ = 2 * Real.cos t)
    (ha : self.initial_amplitude_ = 0.5 * Real.cos t) (n : Nat) :
    (self.Start.afterNext n).y0_ = 0.5 * Real.cos (n * t)
      ∧ (self.Start.afterNext n).y1_ = 0.5 * Real.cos (n * t - t)
      ∧ (self.Start.afterNext n).iir_coefficient_ = 2 * Real.cos t := by
  induction n with
  | zero =>
    simp [CosineOscillator.afterNext, CosineOscillator.Start, ha, hc]
  | succ n ih =>
    obtain ⟨h0, h1, h2⟩ := ih
    simp only [CosineOscillator.afterNext, CosineOscillator.Next, h0, h1, h2]
    refine ⟨?_, ?_, trivial⟩
    · have e1 : ((n + 1 : ℕ) : ℝ) * t = n * t + t := by push_cast; ring
      rw [e1, Real.cos_add, Real.cos_sub]
      ring
    · have e1 : ((n + 1 : ℕ) : ℝ) * t - t = n * t := by push_cast; ring
      rw [e1]

/-- With `iir_coefficient_ = 2 cos t` and `initial_amplitude_ = 0.5 cos t`, the `n`-th value of
`Next()` after `Start()` is `0.5 cos (n t) + 0.5`. -/
theorem CosineOscillator.nthNext_start_cos (self : CosineOscillator ℝ) (t : ℝ)
    (hc : self.iir_coefficient_ = 2 * Real.cos t)
    (ha : self.initial_amplitude_ = 0.5 * Real.cos t) (n : Nat) :
    self.Start.nthNext n = 0.5 * Real.cos (n * t) + 0.5 := by
  have h := (CosineOscillator.afterNext_start_cos self t hc ha n).1
  simp [CosineOscillator.nthNext, CosineOscillator.Next, h]

/-- A coefficient in `[-2, 2]` with the matching initial amplitude gives values in `[0, 1]`. -/
theorem CosineOscillator.nthNext_start_mem_unit (self : CosineOscillator ℝ)
    (hlo : -2 ≤ self.iir_coefficient_) (hhi : self.iir_coefficient_ ≤ 2)
    (ha : self.initial_amplitude_ = self.iir_coefficient_ * 0.25) (n : Nat) :
    0 ≤ self.Start.nthNext n ∧ self.Start.nthNext n ≤ 1 := by
  have hcos : Real.cos (Real.arccos (self.iir_coefficient_ / 2)) = self.iir_coefficient_ / 2 :=
    Real.cos_arccos (by linarith) (by linarith)
  have hc : self.iir_coefficient_ = 2 * Real.cos (Real.arccos (self.iir_coefficient_ / 2)) := by
    rw [hcos]; ring
  have ha' : self.initial_amplitude_
      = 0.5 * Real.cos (Real.arccos (self.iir_coefficient_ / 2)) := by
    rw [hcos, ha]; ring
  rw [CosineOscillator.nthNext_start_cos self _ hc ha' n]
  have h1 := Real.neg_one_le_cos (n * Real.arccos (self.iir_coefficient_ / 2))
  have h2 := Real.cos_le_one (n * Real.arccos (self.iir_coefficient_ / 2))
  constructor <;> linarith

/-- For a frequency in `[0, 1)`, `InitApproximate` sets a coefficient in `[-2, 2]` and the
initial amplitude to a quarter of it. -/
theorem CosineOscillator.InitApproximate_bounds (self : CosineOscillator ℝ) (f : ℝ)
    (h0 : 0 ≤ f) (h1 : f < 1) :
    -2 ≤ (self.InitApproximate f).iir_coefficient_
      ∧ (self.InitApproximate f).iir_coefficient_ ≤ 2
      ∧ (self.InitApproximate f).initial_amplitude_
        = (self.InitApproximate f).iir_coefficient_ * 0.25 := by
  unfold CosineOscillator.InitApproximate
  by_cases hA : f - 0.25 < 0
  · simp only [hA, if_true]
    refine ⟨?_, ?_, trivial⟩
    · nlinarith [mul_nonneg (by linarith : (0:ℝ) ≤ -(f - 0.25))
        (by linarith : (0:ℝ) ≤ 1 - 2 * -(f - 0.25))]
    · nlinarith [sq_nonneg (4 * -(f - 0.25) - 1)]
  · by_cases hB : f - 0.25 > 0.5
    · simp only [hA, hB, if_true, if_false]
      refine ⟨?_, ?_, trivial⟩
      · nlinarith [mul_nonneg (by linarith : (0:ℝ) ≤ f - 0.25 - 0.5)
          (by linarith : (0:ℝ) ≤ 1 - 2 * (f - 0.25 - 0.5))]
      · nlinarith [sq_nonneg (4 * (f - 0.25 - 0.5) - 1)]
    · simp only [hA, hB, if_false]
      refine ⟨?_, ?_, trivial⟩
      · nlinarith [sq_nonneg (4 * (f - 0.25) - 1)]
      · nlinarith [mul_nonneg (by linarith : (0:ℝ) ≤ f - 0.25)
          (by linarith : (0:ℝ) ≤ 1 - 2 * (f - 0.25))]

/-- C6. In exact real arithmetic, for a frequency `f` in `[0, 1)`, either
`CosineOscillatorMode` and every `n`, the `n`-th value that `Next()` returns after
`Init<mode>(f)` lies in `[0, 1]`. -/
theorem cosineOscillator_next_unipolar (mode : CosineOscillatorMode)
    (self : CosineOscillator ℝ) (f : ℝ) (h0 : 0 ≤ f) (h1 : f < 1) (n : Nat) :
    0 ≤ (CosineOscillator.Init mode Real.pi Real.cos self f).nthNext n
      ∧ (CosineOscillator.Init mode Real.pi Real.cos self f).nthNext n ≤ 1 := by
  unfold CosineOscillator.Init
  by_cases hm : mode = COSINE_OSCILLATOR_EXACT
  · simp only [hm, if_true]
    obtain ⟨hlo, hhi, ha⟩ := CosineOscillator.InitApproximate_bounds self f h0 h1
    exact CosineOscillator.nthNext_start_mem_unit _ hlo hhi ha n
  · simp only [hm, if_false]
    refine CosineOscillator.nthNext_start_mem_unit _ ?_ ?_ rfl n
    · have := Real.neg_one_le_cos (2 * Real.pi * f)
      simp only
      linarith
    · have := Real.cos_le_one (2 * Real.pi * f)
      simp only
      linarith

/-- Witness for C6: `Init<COSINE_OSCILLATOR_EXACT>(0.125)`, fifth value. -/
theorem cosineOscillator_next_unipolar_witness :
    (0 : ℝ) ≤ 0.125 ∧ (0.125 : ℝ) < 1
      ∧ 0 ≤ (CosineOscillator.Init COSINE_OSCILLATOR_EXACT Real.pi Real.cos
          ⟨0, 0, 0, 0⟩ 0.125).nthNext 4
      ∧ (CosineOscillator.Init COSINE_OSCILLATOR_EXACT Real.pi Real.cos
          ⟨0, 0, 0, 0⟩ 0.125).nthNext 4 ≤ 1 :=
  ⟨by norm_num, by norm_num,
    cosineOscillator_next_unipolar COSINE_OSCILLATOR_EXACT ⟨0, 0, 0, 0⟩ 0.125
      (by norm_num) (by norm_num) 4⟩

/-! ### CosineOscillator: which branch each mode of `Init` takes -/

theorem CosineOscillator.two_cos_quarter_turn :
    2 * Real.cos (2 * Real.pi * 0.125) = Real.sqrt 2 := by
  have e : 2 * Real.pi * 0.125 = Real.pi / 4 := by ring
  rw [e, Real.cos_pi_div_four]
  ring

theorem CosineOscillator.sqrt_two_ne_three_halves : Real.sqrt 2 ≠ 1.5 := by
  intro h
  have h2 : Real.sqrt 2 * Real.sqrt 2 = 2 := Real.mul_self_sqrt (by norm_num)
  rw [h] at h2
  norm_num at h2

/-- C4, the code at `f = 0.125`: after `Init<COSINE_OSCILLATOR_EXACT>(0.125)` the call of
`Next()` number 1 returns `0.875`, which is not `0.5 * cos(2 * pi * 0.125 * 1) + 0.5`. -/
theorem cosineOscillator_init_exact_at_eighth :
    (CosineOscillator.Init COSINE_OSCILLATOR_EXACT Real.pi Real.cos
        ⟨0, 0, 0, 0⟩ 0.125).nthNext 1 = 0.875
      ∧ (0.875 : ℝ) ≠ 0.5 * Real.cos (2 * Real.pi * 0.125 * 1) + 0.5 := by
  constructor
  · simp [CosineOscillator.Init, CosineOscillator.InitApproximate, CosineOscillator.Start,
      CosineOscillator.nthNext, CosineOscillator.afterNext, CosineOscillator.Next]
    norm_num
  · intro h
    apply CosineOscillator.sqrt_two_ne_three_halves
    rw [← CosineOscillator.two_cos_quarter_turn]
    rw [mul_one] at h
    linarith

/-- C5, the code at `f = 0.125`: `Init<COSINE_OSCILLATOR_APPROXIMATE>(0.125)` sets
`iir_coefficient_` to `2 * cosf(2 * M_PI * 0.125)`, which is `sqrt 2`, while
`InitApproximate(0.125)` followed by `Start()` sets it to `1.5`. -/
theorem cosineOscillator_init_approximate_at_eighth :
    (CosineOscillator.Init COSINE_OSCILLATOR_APPROXIMATE Real.pi Real.cos
        ⟨0, 0, 0, 0⟩ 0.125).iir_coefficient_ = 2 * Real.cos (2 * Real.pi * 0.125)
      ∧ ((CosineOscillator.InitApproximate (⟨0, 0, 0, 0⟩ : CosineOscillator ℝ)
        0.125).Start).iir_coefficient_ = 1.5
      ∧ CosineOscillator.Init COSINE_OSCILLATOR_APPROXIMATE Real.pi Real.cos
          ⟨0, 0, 0, 0⟩ 0.125
        ≠ (CosineOscillator.InitApproximate (⟨0, 0, 0, 0⟩ : CosineOscillator ℝ)
          0.125).Start := by
  have hA : (CosineOscillator.Init COSINE_OSCILLATOR_APPROXIMATE Real.pi Real.cos
      ⟨0, 0, 0, 0⟩ 0.125).iir_coefficient_ = 2 * Real.cos (2 * Real.pi * 0.125) := by
    simp [CosineOscillator.Init, CosineOscillator.Start]
  have hB : ((CosineOscillator.InitApproximate (⟨0, 0, 0, 0⟩ : CosineOscillator ℝ)
      0.125).Start).iir_coefficient_ = 1.5 := by
    simp [CosineOscillator.InitApproximate, CosineOscillator.Start]
    norm_num
  refine ⟨hA, hB, fun h => ?_⟩
  apply CosineOscillator.sqrt_two_ne_three_halves
  rw [← CosineOscillator.two_cos_quarter_turn, ← hA, h, hB]

end RealArithmetic

section OutputTap

variable {α : Type} [LinearOrderedField α]

/-! ### ResonatorSVF: the output tap and the `add` flag -/

theorem ResonatorSVF.modeStep_not_low_pass {B : Nat} (mode : FilterMode)
    (hmode : mode ≠ FILTER_MODE_LOW_PASS) (c : ResonatorSVF.Coefficients B α) (s_in : α) :
    ResonatorSVF.modeStep mode c s_in = ResonatorSVF.modeStep FILTER_MODE_BAND_PASS c s_in := by
  funext l i
  simp [ResonatorSVF.modeStep, hmode]

theorem ResonatorSVF.sampleLoop_not_low_pass {B : Nat} (mode : FilterMode)
    (hmode : mode ≠ FILTER_MODE_LOW_PASS) (add : Bool) (c : ResonatorSVF.Coefficients B α)
    (inp out : List α) (l : ResonatorSVF.Locals B α) :
    ResonatorSVF.sampleLoop mode add c inp out l
      = ResonatorSVF.sampleLoop FILTER_MODE_BAND_PASS add c inp out l := by
  induction inp generalizing out l with
  | nil => rfl
  | cons x xs ih =>
    simp only [ResonatorSVF.sampleLoop, ResonatorSVF.sampleStep,
      ResonatorSVF.modeStep_not_low_pass mode hmode, ih]

/-- C11, amended. Instantiated with `FILTER_MODE_BAND_PASS_NORMALIZED` or
`FILTER_MODE_HIGH_PASS`, `ResonatorSVF::Process` adds for every mode the band-pass tap times
the gain to the per-sample sum: for every state, `f`, `q`, `gain`, input, prior output buffer
and `add` flag it leaves the output buffer and the filter state that the
`FILTER_MODE_BAND_PASS` instantiation leaves. -/
theorem resonatorSVF_reserved_modes_band_pass {B : Nat} (mode : FilterMode)
    (hmode : mode = FILTER_MODE_BAND_PASS_NORMALIZED ∨ mode = FILTER_MODE_HIGH_PASS)
    (add : Bool) (M_PI : α) (tanf : α → α) (self : ResonatorSVF B α) (f q gain : Fin B → α)
    (inp out : List α) :
    ResonatorSVF.Process mode add M_PI tanf self f q gain inp out
      = ResonatorSVF.Process FILTER_MODE_BAND_PASS add M_PI tanf self f q gain inp out := by
  have hne : mode ≠ FILTER_MODE_LOW_PASS := by
    rcases hmode with h | h <;> rw [h] <;> decide
  simp only [ResonatorSVF.Process, ResonatorSVF.sampleLoop_not_low_pass mode hne]

/-- The sample loop with and without `add`: same locals at the end; at an index below the
number of samples, the accumulating run leaves the prior element plus what the overwriting run
writes, and the overwriting run writes the same whatever the prior buffer. -/
theorem ResonatorSVF.sampleLoop_add {B : Nat} (mode : FilterMode)
    (c : ResonatorSVF.Coefficients B α) (inp out out2 : List α)
    (l : ResonatorSVF.Locals B α) :
    (ResonatorSVF.sampleLoop mode true c inp out l).2
        = (ResonatorSVF.sampleLoop mode false c inp out2 l).2
      ∧ ∀ n, n < inp.length →
        (ResonatorSVF.sampleLoop mode true c inp out l).1.getD n 0
          = out.getD n 0 + (ResonatorSVF.sampleLoop mode false c inp out2 l).1.getD n 0 := by
  induction inp generalizing out out2 l with
  | nil => simp [ResonatorSVF.sampleLoop]
  | cons x xs ih =>
    obtain ⟨h1, h2⟩ := ih out.tail out2.tail (ResonatorSVF.sampleStep mode c x l)
    refine ⟨by simp only [ResonatorSVF.sampleLoop, h1], ?_⟩
    intro n hn
    cases n with
    | zero =>
      cases out <;> simp [ResonatorSVF.sampleLoop]
    | succ k =>
      have hk : k < xs.length := by simpa using hn
      have h3 := h2 k hk
      cases out with
      | nil => simpa [ResonatorSVF.sampleLoop] using h3
      | cons o os => simpa [ResonatorSVF.sampleLoop] using h3

/-- C12. From the same filter state and with the same `f`, `q`, `gain` and input: at every
index `n < size`, the call of `ResonatorSVF::Process` with `add = false` writes a sample that
is the same whatever the prior output buffer (`out` or `out2`), the call with `add = true`
leaves the prior `out[n]` plus that sample, and both calls end in the same filter state.
Here `getD n 0` reads element `n` of a buffer. -/
theorem resonatorSVF_add_versus_overwrite {B : Nat} (mode : FilterMode)
    (M_PI : α) (tanf : α → α) (self : ResonatorSVF B α) (f q gain : Fin B → α)
    (inp out out2 : List α) (n : Nat) (hn : n < inp.length) :
    (ResonatorSVF.Process mode false M_PI tanf self f q gain inp out).1.getD n 0
        = (ResonatorSVF.Process mode false M_PI tanf self f q gain inp out2).1.getD n 0
      ∧ (ResonatorSVF.Process mode true M_PI tanf self f q gain inp out).1.getD n 0
        = out.getD n 0
          + (ResonatorSVF.Process mode false M_PI tanf self f q gain inp out2).1.getD n 0
      ∧ (ResonatorSVF.Process mode true M_PI tanf self f q gain inp out).2
        = (ResonatorSVF.Process mode false M_PI tanf self f q gain inp out2).2 := by
  obtain ⟨h1, h2⟩ := ResonatorSVF.sampleLoop_add mode
    (ResonatorSVF.coefficients M_PI tanf f q gain) inp out out2
    { s_out := 0, state_1 := fun i => self.state_1_ i, state_2 := fun i => self.state_2_ i }
  obtain ⟨_, h3⟩ := ResonatorSVF.sampleLoop_add mode
    (ResonatorSVF.coefficients M_PI tanf f q gain) inp out out
    { s_out := 0, state_1 := fun i => self.state_1_ i, state_2 := fun i => self.state_2_ i }
  refine ⟨?_, h2 n hn, by simp only [ResonatorSVF.Process, h1]⟩
  have h4 := h2 n hn
  have h5 := h3 n hn
  simp only [ResonatorSVF.Process]
  rw [h4] at h5
  exact (add_left_cancel h5).symm

end OutputTap

section OutputTapWitnesses

/-- Witness for the amended C11: one mode, `FILTER_MODE_HIGH_PASS`, one sample. -/
theorem resonatorSVF_reserved_modes_band_pass_witness :
    (FILTER_MODE_HIGH_PASS = FILTER_MODE_BAND_PASS_NORMALIZED
        ∨ FILTER_MODE_HIGH_PASS = FILTER_MODE_HIGH_PASS)
      ∧ ResonatorSVF.Process FILTER_MODE_HIGH_PASS false Real.pi Real.tan
          (⟨fun _ => 0, fun _ => 0⟩ : ResonatorSVF 1 ℝ) (fun _ => 1 / 4) (fun _ => 1)
          (fun _ => 1) [1] [0]
        = ResonatorSVF.Process FILTER_MODE_BAND_PASS false Real.pi Real.tan
          (⟨fun _ => 0, fun _ => 0⟩ : ResonatorSVF 1 ℝ) (fun _ => 1 / 4) (fun _ => 1)
          (fun _ => 1) [1] [0] :=
  ⟨Or.inr rfl,
    resonatorSVF_reserved_modes_band_pass FILTER_MODE_HIGH_PASS (Or.inr rfl) false Real.pi
      Real.tan ⟨fun _ => 0, fun _ => 0⟩ (fun _ => 1 / 4) (fun _ => 1) (fun _ => 1) [1] [0]⟩

/-- Witness for C12: one mode, two samples, index 1. -/
theorem resonatorSVF_add_versus_overwrite_witness :
    1 < ([1, 0] : List ℝ).length
      ∧ (ResonatorSVF.Process FILTER_MODE_BAND_PASS false Real.pi Real.tan
            (⟨fun _ => 0, fun _ => 0⟩ : ResonatorSVF 1 ℝ) (fun _ => 1 / 4) (fun _ => 1)
            (fun _ => 1) [1, 0] [5, 6]).1.getD 1 0
          = (ResonatorSVF.Process FILTER_MODE_BAND_PASS false Real.pi Real.tan
            (⟨fun _ => 0, fun _ => 0⟩ : ResonatorSVF 1 ℝ) (fun _ => 1 / 4) (fun _ => 1)
            (fun _ => 1) [1, 0] []).1.getD 1 0
      ∧ (ResonatorSVF.Process FILTER_MODE_BAND_PASS true Real.pi Real.tan
            (⟨fun _ => 0, fun _ => 0⟩ : ResonatorSVF 1 ℝ) (fun _ => 1 / 4) (fun _ => 1)
            (fun _ => 1) [1, 0] [5, 6]).1.getD 1 0
          = ([5, 6] : List ℝ).getD 1 0
            + (ResonatorSVF.Process FILTER_MODE_BAND_PASS false Real.pi Real.tan
              (⟨fun _ => 0, fun _ => 0⟩ : ResonatorSVF 1 ℝ) (fun _ => 1 / 4) (fun _ => 1)
              (fun _ => 1) [1, 0] []).1.getD 1 0
      ∧ (ResonatorSVF.Process FILTER_MODE_BAND_PASS true Real.pi Real.tan
            (⟨fun _ => 0, fun _ => 0⟩ : ResonatorSVF 1 ℝ) (fun _ => 1 / 4) (fun _ => 1)
            (fun _ => 1) [1, 0] [5, 6]).2
          = (ResonatorSVF.Process FILTER_MODE_BAND_PASS false Real.pi Real.tan
            (⟨fun _ => 0, fun _ => 0⟩ : ResonatorSVF 1 ℝ) (fun _ => 1 / 4) (fun _ => 1)
            (fun _ => 1) [1, 0] []).2 :=
  ⟨by decide,
    resonatorSVF_add_versus_overwrite FILTER_MODE_BAND_PASS Real.pi Real.tan
      ⟨fun _ => 0, fun _ => 0⟩ (fun _ => 1 / 4) (fun _ => 1) (fun _ => 1) [1, 0] [5, 6] [] 1
      (by decide)⟩

end OutputTapWitnesses

section ReservedModes

theorem ResonatorSVF.tan_exact_quarter :
    OnePole.tan FREQUENCY_EXACT Real.pi Real.tan 0.25 = 1 := by
  rw [OnePole.tan_exact_eq, min_eq_left (by norm_num)]
  have e : Real.pi * 0.25 = Real.pi / 4 := by ring
  rw [e, Real.tan_pi_div_four]

/-- Counterexample for C11: one mode at rest with `f = 0.25`, `q = 1`, `gain = 1` and the
input sample 1.  The non-accumulating `FILTER_MODE_HIGH_PASS` call writes `1/3` (the
band-pass tap), not 0. -/
theorem resonatorSVF_high_pass_mode_not_zero :
    (ResonatorSVF.Process FILTER_MODE_HIGH_PASS false Real.pi Real.tan
        (⟨fun _ => 0, fun _ => 0⟩ : ResonatorSVF 1 ℝ) (fun _ => 0.25) (fun _ => 1)
        (fun _ => 1) [1] [0]).1 = [1 / 3]
      ∧ ([1 / 3] : List ℝ) ≠ [0] := by
  have hfr : List.finRange 1 = [(0 : Fin 1)] := by decide
  constructor
  · simp [ResonatorSVF.Process, ResonatorSVF.sampleLoop, ResonatorSVF.sampleStep,
      ResonatorSVF.modeStep, ResonatorSVF.coefficients, hfr, ResonatorSVF.tan_exact_quarter]
    norm_num
  · simp

end ReservedModes

section FrameAndRefinement

variable {α : Type} [LinearOrderedField α]

/-! ### OnePole: unsupported modes, buffer overload, reset -/

theorem OnePole.Process_state (mode : FilterMode) (flushed : α → α) (self : OnePole α)
    (x : α) :
    (OnePole.Process mode flushed self x).2
      = { self with
          state_ := flushed (self.g_ * (x - (self.g_ * x + self.state_) * self.gi_)
            + (self.g_ * x + self.state_) * self.gi_) } := by
  unfold OnePole.Process
  split_ifs <;> rfl

/-- C13. For every filter state and input sample, `OnePole::Process<FILTER_MODE_BAND_PASS>`
and `OnePole::Process<FILTER_MODE_BAND_PASS_NORMALIZED>` return 0 and leave the filter in the
state that the low-pass and the high-pass instantiations leave for that input. -/
theorem onePole_band_pass_modes_return_zero (flushed : α → α) (self : OnePole α) (x : α) :
    (OnePole.Process FILTER_MODE_BAND_PASS flushed self x).1 = 0
      ∧ (OnePole.Process FILTER_MODE_BAND_PASS_NORMALIZED flushed self x).1 = 0
      ∧ (OnePole.Process FILTER_MODE_BAND_PASS flushed self x).2
        = (OnePole.Process FILTER_MODE_LOW_PASS flushed self x).2
      ∧ (OnePole.Process FILTER_MODE_BAND_PASS flushed self x).2
        = (OnePole.Process FILTER_MODE_HIGH_PASS flushed self x).2
      ∧ (OnePole.Process FILTER_MODE_BAND_PASS_NORMALIZED flushed self x).2
        = (OnePole.Process FILTER_MODE_LOW_PASS flushed self x).2
      ∧ (OnePole.Process FILTER_MODE_BAND_PASS_NORMALIZED flushed self x).2
        = (OnePole.Process FILTER_MODE_HIGH_PASS flushed self x).2 := by
  refine ⟨?_, ?_, ?_, ?_, ?_, ?_⟩
  · simp [OnePole.Process]
  · simp [OnePole.Process]
  all_goals rw [OnePole.Process_state, OnePole.Process_state]

theorem OnePole.ProcessBuffer_spec (mode : FilterMode) (flushed : α → α) (self : OnePole α)
    (in_out : List α) (n : Nat) (hn : n ≤ in_out.length) :
    (OnePole.ProcessBuffer mode flushed self in_out n).1.drop n = in_out.drop n
      ∧ (OnePole.ProcessBuffer mode flushed self in_out n).1.length = in_out.length
      ∧ (OnePole.ProcessBuffer mode flushed self in_out n).2
        = OnePole.afterSamples mode flushed self (in_out.take n)
      ∧ ∀ k, k < n →
        (OnePole.ProcessBuffer mode flushed self in_out n).1[k]?
          = some (OnePole.Process mode flushed
              (OnePole.afterSamples mode flushed self (in_out.take k))
              (in_out.getD k 0)).1 := by
  induction n generalizing self in_out with
  | zero => simp [OnePole.ProcessBuffer, OnePole.afterSamples]
  | succ m ih =>
    cases in_out with
    | nil => simp at hn
    | cons x xs =>
      have hm : m ≤ xs.length := by simpa using hn
      obtain ⟨h1, h2, h3, h4⟩ := ih (OnePole.Process mode flushed self x).2 xs hm
      refine ⟨?_, ?_, ?_, ?_⟩
      · simpa [OnePole.ProcessBuffer] using h1
      · simpa [OnePole.ProcessBuffer] using h2
      · simpa [OnePole.ProcessBuffer, OnePole.afterSamples] using h3
      · intro k hk
        cases k with
        | zero => simp [OnePole.ProcessBuffer, OnePole.afterSamples]
        | succ j =>
          have hj : j < m := by omega
          simpa [OnePole.ProcessBuffer, OnePole.afterSamples] using h4 j hj

/-- C14. For a buffer of at least `n` elements, `OnePole::Process<mode>(in_out, n)` leaves at
every index `k < n` the value that the single-sample `Process<mode>` returns for the original
`in_out[k]` once the samples `0 .. k - 1` have gone through it in order; it leaves the filter
as after those `n` single-sample calls; and it leaves every element at an index `≥ n`, and the
length of the buffer, as they were. -/
theorem onePole_process_buffer_refines_samples (mode : FilterMode) (flushed : α → α)
    (self : OnePole α) (in_out : List α) (n : Nat) (hn : n ≤ in_out.length) :
    (∀ k, k < n →
        (OnePole.ProcessBuffer mode flushed self in_out n).1[k]?
          = some (OnePole.Process mode flushed
              (OnePole.afterSamples mode flushed self (in_out.take k))
              (in_out.getD k 0)).1)
      ∧ (OnePole.ProcessBuffer mode flushed self in_out n).2
        = OnePole.afterSamples mode flushed self (in_out.take n)
      ∧ (OnePole.ProcessBuffer mode flushed self in_out n).1.drop n = in_out.drop n
      ∧ (OnePole.ProcessBuffer mode flushed self in_out n).1.length = in_out.length := by
  obtain ⟨h1, h2, h3, h4⟩ := OnePole.ProcessBuffer_spec mode flushed self in_out n hn
  exact ⟨h4, h3, h1, h2⟩

/-- C15. `OnePole::Reset()` sets `state_` to 0 and leaves `g_` and `gi_` as they are;
`OnePole::Init()` leaves `state_ = 0`, `g_ = tan<FREQUENCY_DIRTY>(0.01)` and
`gi_ = 1 / (1 + g_)`. -/
theorem onePole_reset_and_init (M_PI : α) (tanf : α → α) (self : OnePole α) :
    self.Reset.state_ = 0 ∧ self.Reset.g_ = self.g_ ∧ self.Reset.gi_ = self.gi_
      ∧ (OnePole.Init M_PI tanf self).state_ = 0
      ∧ (OnePole.Init M_PI tanf self).g_ = OnePole.tan FREQUENCY_DIRTY M_PI tanf 0.01
      ∧ (OnePole.Init M_PI tanf self).gi_ = 1 / (1 + (OnePole.Init M_PI tanf self).g_) := by
  have hReset : self.Reset = { self with state_ := 0 } := rfl
  have hInit : OnePole.Init M_PI tanf self
      = { g_ := OnePole.tan FREQUENCY_DIRTY M_PI tanf 0.01
          gi_ := 1 / (1 + OnePole.tan FREQUENCY_DIRTY M_PI tanf 0.01)
          state_ := 0 } := rfl
  rw [hReset, hInit]
  exact ⟨rfl, rfl, rfl, rfl, rfl, rfl⟩

/-- Witness for C14: a low-pass filter with `g_ = 1`, `gi_ = 1/2`, no flush, the buffer
`[1, 2, 3]` and `n = 2`, read at index 1. -/
theorem onePole_process_buffer_refines_samples_witness :
    2 ≤ ([1, 2, 3] : List ℝ).length
      ∧ (OnePole.ProcessBuffer FILTER_MODE_LOW_PASS (fun x => x) ⟨1, 1 / 2, 0⟩
            ([1, 2, 3] : List ℝ) 2).1[1]?
          = some (OnePole.Process FILTER_MODE_LOW_PASS (fun x => x)
              (OnePole.afterSamples FILTER_MODE_LOW_PASS (fun x => x) ⟨1, 1 / 2, 0⟩
                (([1, 2, 3] : List ℝ).take 1))
              (([1, 2, 3] : List ℝ).getD 1 0)).1
      ∧ (OnePole.ProcessBuffer FILTER_MODE_LOW_PASS (fun x => x) ⟨1, 1 / 2, 0⟩
            ([1, 2, 3] : List ℝ) 2).2
          = OnePole.afterSamples FILTER_MODE_LOW_PASS (fun x => x) ⟨1, 1 / 2, 0⟩
              (([1, 2, 3] : List ℝ).take 2)
      ∧ (OnePole.ProcessBuffer FILTER_MODE_LOW_PASS (fun x => x) ⟨1, 1 / 2, 0⟩
            ([1, 2, 3] : List ℝ) 2).1.drop 2 = ([1, 2, 3] : List ℝ).drop 2 :=
  ⟨by decide,
    (onePole_process_buffer_refines_samples FILTER_MODE_LOW_PASS (fun x => x) ⟨1, 1 / 2, 0⟩
      ([1, 2, 3] : List ℝ) 2 (by decide)).1 1 (by decide),
    (onePole_process_buffer_refines_samples FILTER_MODE_LOW_PASS (fun x => x) ⟨1, 1 / 2, 0⟩
      ([1, 2, 3] : List ℝ) 2 (by decide)).2.1,
    (onePole_process_buffer_refines_samples FILTER_MODE_LOW_PASS (fun x => x) ⟨1, 1 / 2, 0⟩
      ([1, 2, 3] : List ℝ) 2 (by decide)).2.2.1⟩

/-! ### ResonatorSVF: independence of the modes -/

theorem ResonatorSVF.sampleLoop_mode_independent {B : Nat} (mode mode2 : FilterMode)
    (add add2 : Bool) (c c2 : ResonatorSVF.Coefficients B α) (i : Fin B)
    (hg : c.g i = c2.g i) (hrg : c.r_plus_g i = c2.r_plus_g i) (hh : c.h i = c2.h i)
    (inp out out2 : List α) (l l2 : ResonatorSVF.Locals B α)
    (h1 : l.state_1 i = l2.state_1 i) (h2 : l.state_2 i = l2.state_2 i) :
    (ResonatorSVF.sampleLoop mode add c inp out l).2.state_1 i
        = (ResonatorSVF.sampleLoop mode2 add2 c2 inp out2 l2).2.state_1 i
      ∧ (ResonatorSVF.sampleLoop mode add c inp out l).2.state_2 i
        = (ResonatorSVF.sampleLoop mode2 add2 c2 inp out2 l2).2.state_2 i := by
  induction inp generalizing out out2 l l2 with
  | nil => exact ⟨h1, h2⟩
  | cons x xs ih =>
    obtain ⟨a1, a2⟩ := ResonatorSVF.sampleStep_state mode c x l i
    obtain ⟨b1, b2⟩ := ResonatorSVF.sampleStep_state mode2 c2 x l2 i
    simp only [ResonatorSVF.sampleLoop]
    apply ih
    · rw [a1, b1, hg, hrg, hh, h1, h2]
    · rw [a2, b2, hg, hrg, hh, h1, h2]

/-- C19. Two calls of `ResonatorSVF::Process` on the same input samples, in which mode `i`
has the same prior `state_1_[i]`, `state_2_[i]`, `f[i]` and `q[i]`, leave the same
`state_1_[i]` and `state_2_[i]`, whatever the gain arrays, the filter modes, the `add` flags,
the prior output buffers and the `f`, `q` and prior state of the other modes. -/
theorem resonatorSVF_mode_independent {B : Nat} (mode mode2 : FilterMode) (add add2 : Bool)
    (M_PI : α) (tanf : α → α) (self self2 : ResonatorSVF B α)
    (f f2 q q2 gain gain2 : Fin B → α) (inp out out2 : List α) (i : Fin B)
    (hs1 : self.state_1_ i = self2.state_1_ i) (hs2 : self.state_2_ i = self2.state_2_ i)
    (hf : f i = f2 i) (hq : q i = q2 i) :
    (ResonatorSVF.Process mode add M_PI tanf self f q gain inp out).2.state_1_ i
        = (ResonatorSVF.Process mode2 add2 M_PI tanf self2 f2 q2 gain2 inp out2).2.state_1_ i
      ∧ (ResonatorSVF.Process mode add M_PI tanf self f q gain inp out).2.state_2_ i
        = (ResonatorSVF.Process mode2 add2 M_PI tanf self2 f2 q2 gain2 inp out2).2.state_2_
          i := by
  simp only [ResonatorSVF.Process]
  apply ResonatorSVF.sampleLoop_mode_independent
  · simp only [ResonatorSVF.coefficients, hf]
  · simp only [ResonatorSVF.coefficients, hf, hq]
  · simp only [ResonatorSVF.coefficients, hf, hq]
  · exact hs1
  · exact hs2

/-- Witness for C19: two modes; the calls differ in the filter mode, the `add` flag, the
gains, the prior output buffer and everything of mode 1, and agree on mode 0. -/
theorem resonatorSVF_mode_independent_witness :
    (ResonatorSVF.Process FILTER_MODE_BAND_PASS false Real.pi Real.tan
          (⟨![1, 2], ![3, 4]⟩ : ResonatorSVF 2 ℝ) ![0.1, 0.2] ![1, 2] ![1, 1]
          [1, 0] []).2.state_1_ 0
        = (ResonatorSVF.Process FILTER_MODE_LOW_PASS true Real.pi Real.tan
          (⟨![1, 7], ![3, 8]⟩ : ResonatorSVF 2 ℝ) ![0.1, 0.3] ![1, 5] ![2, 3]
          [1, 0] [9, 9]).2.state_1_ 0
      ∧ (ResonatorSVF.Process FILTER_MODE_BAND_PASS false Real.pi Real.tan
          (⟨![1, 2], ![3, 4]⟩ : ResonatorSVF 2 ℝ) ![0.1, 0.2] ![1, 2] ![1, 1]
          [1, 0] []).2.state_2_ 0
        = (ResonatorSVF.Process FILTER_MODE_LOW_PASS true Real.pi Real.tan
          (⟨![1, 7], ![3, 8]⟩ : ResonatorSVF 2 ℝ) ![0.1, 0.3] ![1, 5] ![2, 3]
          [1, 0] [9, 9]).2.state_2_ 0 := by
  have h1 : (⟨![1, 2], ![3, 4]⟩ : ResonatorSVF 2 ℝ).state_1_ 0
      = (⟨![1, 7], ![3, 8]⟩ : ResonatorSVF 2 ℝ).state_1_ 0 := by simp
  have h2 : (⟨![1, 2], ![3, 4]⟩ : ResonatorSVF 2 ℝ).state_2_ 0
      = (⟨![1, 7], ![3, 8]⟩ : ResonatorSVF 2 ℝ).state_2_ 0 := by simp
  have h3 : (![0.1, 0.2] : Fin 2 → ℝ) 0 = (![0.1, 0.3] : Fin 2 → ℝ) 0 := by simp
  have h4 : (![1, 2] : Fin 2 → ℝ) 0 = (![1, 5] : Fin 2 → ℝ) 0 := by simp
  exact resonatorSVF_mode_independent FILTER_MODE_BAND_PASS FILTER_MODE_LOW_PASS false true
    Real.pi Real.tan (⟨![1, 2], ![3, 4]⟩ : ResonatorSVF 2 ℝ)
    (⟨![1, 7], ![3, 8]⟩ : ResonatorSVF 2 ℝ) ![0.1, 0.2] ![0.1, 0.3]
    ![1, 2] ![1, 5] ![1, 1] ![2, 3] [1, 0] [] [9, 9] 0 h1 h2 h3 h4

end FrameAndRefinement

section ResonatorResolution

variable {α : Type}

/-! ### Resonator: resolution -/

/-- C16. Whatever the position and the integer resolution passed to `Resonator::Init`, the
stored `resolution_` is at most `kMaxNumModes = 128`, so that the active modes fill at most
`kMaxNumModes / kModeBatchSize = 32` batches of `kModeBatchSize = 4` modes, a last partial
batch counted. -/
theorem resonator_init_resolution_le (attenuation : α → Fin kMaxNumModes → α)
    (self : Resonator α) (position : α) (resolution : Int) :
    (Resonator.Init attenuation self position resolution).resolution_ ≤ 128
      ∧ ((Resonator.Init attenuation self position resolution).resolution_ + 3) / 4 ≤ 32
      ∧ kMaxNumModes = 128 ∧ kModeBatchSize = 4 ∧ kMaxNumModes / kModeBatchSize = 32 := by
  have h : (Resonator.Init attenuation self position resolution).resolution_
      = min resolution 128 := rfl
  have h2 : min resolution 128 ≤ 128 := min_le_right _ _
  rw [h]
  refine ⟨h2, by omega, rfl, rfl, rfl⟩

end ResonatorResolution

section OscillatorCoefficient

/-! ### CosineOscillator: recurrence and approximate coefficient -/

/-- C17. In exact real arithmetic, an oscillator with `iir_coefficient_ = 2 cos t` and
`initial_amplitude_ = 0.5 cos t` returns, after `Start()`, `0.5 cos (n t) + 0.5` from the
`n`-th call of `Next()` (counting from 0); and for any oscillator, `value()` read right after
a call of `Next()` is the value that call returned. -/
theorem cosineOscillator_recurrence (self : CosineOscillator ℝ) (t : ℝ)
    (hc : self.iir_coefficient_ = 2 * Real.cos t)
    (ha : self.initial_amplitude_ = 0.5 * Real.cos t) (n : Nat) :
    self.Start.nthNext n = 0.5 * Real.cos (n * t) + 0.5
      ∧ ∀ o : CosineOscillator ℝ, o.Next.2.value = o.Next.1 := by
  refine ⟨CosineOscillator.nthNext_start_cos self t hc ha n, fun o => ?_⟩
  simp [CosineOscillator.Next, CosineOscillator.value]

/-- Witness for C17: `t = 0`, that is `iir_coefficient_ = 2` and `initial_amplitude_ = 0.5`,
third value. -/
theorem cosineOscillator_recurrence_witness :
    (⟨0, 0, 2, 0.5⟩ : CosineOscillator ℝ).Start.nthNext 3
        = 0.5 * Real.cos ((3 : ℕ) * 0) + 0.5
      ∧ ∀ o : CosineOscillator ℝ, o.Next.2.value = o.Next.1 :=
  cosineOscillator_recurrence ⟨0, 0, 2, 0.5⟩ 0 (by simp) (by simp) 3

theorem CosineOscillator.InitApproximate_symm (self self2 : CosineOscillator ℝ) (f : ℝ)
    (h0 : 0 < f) (h1 : f < 1) :
    (self.InitApproximate f).iir_coefficient_
      = (self2.InitApproximate (1 - f)).iir_coefficient_ := by
  unfold CosineOscillator.InitApproximate
  rcases lt_trichotomy f 0.25 with hlt | heq | hgt
  · have hA : f - 0.25 < 0 := by linarith
    have hB : ¬ (1 - f - 0.25 < 0) := by linarith
    have hC : 1 - f - 0.25 > 0.5 := by linarith
    simp only [hA, hB, hC, if_true, if_false]
    ring
  · subst heq
    norm_num
  · have hA : ¬ (f - 0.25 < 0) := by linarith
    by_cases hB : f - 0.25 > 0.5
    · have hC : 1 - f - 0.25 < 0 := by linarith
      simp only [hA, hB, hC, if_true, if_false]
      ring
    · by_cases hD : f - 0.25 = 0.5
      · have hf : f = 0.75 := by linarith
        subst hf
        norm_num
      · have hC : ¬ (1 - f - 0.25 < 0) := by
          have : f - 0.25 < 0.5 := lt_of_le_of_ne (not_lt.mp hB) hD
          linarith
        have hE : ¬ (1 - f - 0.25 > 0.5) := by linarith
        simp only [hA, hB, hC, hE, if_false]
        ring

end OscillatorCoefficient

section WellDefinedCoefficients

theorem CosineOscillator.cos_three_quarter_turn : Real.cos (2 * Real.pi * 0.75) = 0 := by
  have e : 2 * Real.pi * 0.75 = Real.pi / 2 + Real.pi := by ring
  rw [e, Real.cos_add_pi, Real.cos_pi_div_two, neg_zero]

/-- C18. In exact real arithmetic, for a frequency `f` in `[0, 1)` `InitApproximate(f)` sets
`iir_coefficient_` to a value in `[-2, 2]`; at `f = 0, 0.25, 0.5, 0.75` that value is
`2 cos (2 pi f)`; and for `f` in `(0, 1)`, `InitApproximate(f)` and `InitApproximate(1 - f)`
set the same `iir_coefficient_`. -/
theorem cosineOscillator_approximate_coefficient (self self2 : CosineOscillator ℝ) (f : ℝ)
    (h0 : 0 ≤ f) (h1 : f < 1) :
    (-2 ≤ (self.InitApproximate f).iir_coefficient_
        ∧ (self.InitApproximate f).iir_coefficient_ ≤ 2)
      ∧ ((self.InitApproximate 0).iir_coefficient_ = 2 * Real.cos (2 * Real.pi * 0)
        ∧ (self.InitApproximate 0.25).iir_coefficient_ = 2 * Real.cos (2 * Real.pi * 0.25)
        ∧ (self.InitApproximate 0.5).iir_coefficient_ = 2 * Real.cos (2 * Real.pi * 0.5)
        ∧ (self.InitApproximate 0.75).iir_coefficient_ = 2 * Real.cos (2 * Real.pi * 0.75))
      ∧ (0 < f → (self.InitApproximate f).iir_coefficient_
          = (self2.InitApproximate (1 - f)).iir_coefficient_) := by
  obtain ⟨hlo, hhi, _⟩ := CosineOscillator.InitApproximate_bounds self f h0 h1
  refine ⟨⟨hlo, hhi⟩, ⟨?_, ?_, ?_, ?_⟩,
    fun hpos => CosineOscillator.InitApproximate_symm self self2 f hpos h1⟩
  · simp only [CosineOscillator.InitApproximate]
    norm_num
  · have e : 2 * Real.pi * 0.25 = Real.pi / 2 := by ring
    rw [e, Real.cos_pi_div_two]
    simp only [CosineOscillator.InitApproximate]
    norm_num
  · have e : 2 * Real.pi * 0.5 = Real.pi := by ring
    rw [e, Real.cos_pi]
    simp only [CosineOscillator.InitApproximate]
    norm_num
  · rw [CosineOscillator.cos_three_quarter_turn]
    simp only [CosineOscillator.InitApproximate]
    norm_num

/-- Witness for C18 at `f = 0.125`, whose mirror frequency is `0.875`. -/
theorem cosineOscillator_approximate_coefficient_witness :
    (0 : ℝ) ≤ 0.125 ∧ (0.125 : ℝ) < 1 ∧ (0 : ℝ) < 0.125
      ∧ -2 ≤ ((⟨0, 0, 0, 0⟩ : CosineOscillator ℝ).InitApproximate 0.125).iir_coefficient_
      ∧ ((⟨0, 0, 0, 0⟩ : CosineOscillator ℝ).InitApproximate 0.125).iir_coefficient_ ≤ 2
      ∧ ((⟨0, 0, 0, 0⟩ : CosineOscillator ℝ).InitApproximate 0.125).iir_coefficient_
        = ((⟨1, 1, 1, 1⟩ : CosineOscillator ℝ).InitApproximate
            (1 - 0.125)).iir_coefficient_ :=
  ⟨by norm_num, by norm_num, by norm_num,
    (cosineOscillator_approximate_coefficient ⟨0, 0, 0, 0⟩ ⟨1, 1, 1, 1⟩ 0.125 (by norm_num)
      (by norm_num)).1.1,
    (cosineOscillator_approximate_coefficient ⟨0, 0, 0, 0⟩ ⟨1, 1, 1, 1⟩ 0.125 (by norm_num)
      (by norm_num)).1.2,
    (cosineOscillator_approximate_coefficient ⟨0, 0, 0, 0⟩ ⟨1, 1, 1, 1⟩ 0.125 (by norm_num)
      (by norm_num)).2.2 (by norm_num)⟩

/-! ### Coefficients under the caller preconditions -/

theorem OnePole.tan_nonneg (tier : FrequencyApproximation) (f : ℝ) (hf : 0 ≤ f) :
    0 ≤ OnePole.tan tier Real.pi Real.tan f := by
  have hpi := Real.pi_pos
  cases tier with
  | FREQUENCY_EXACT => exact OnePole.tan_exact_nonneg f hf
  | FREQUENCY_ACCURATE =>
    simp only [OnePole.tan]
    positivity
  | FREQUENCY_FAST =>
    simp only [OnePole.tan]
    positivity
  | FREQUENCY_DIRTY =>
    simp only [OnePole.tan]
    positivity

theorem OnePole.one_div_one_add_mem (x : ℝ) (hx : 0 ≤ x) :
    1 + x ≠ 0 ∧ 0 < 1 / (1 + x) ∧ 1 / (1 + x) ≤ 1 := by
  have h : 0 < 1 + x := by linarith
  refine ⟨h.ne', by positivity, ?_⟩
  rw [div_le_one h]
  linarith

/-- C20. In exact real arithmetic, for a mode with `0 ≤ f[i] < 0.5` and `q[i] > 0`, the
coefficient loop of `ResonatorSVF::Process` divides by `q[i]` and by
`1 + r[i] g[i] + g[i] g[i]`, both nonzero, where `g[i] = tan<FREQUENCY_EXACT>(f[i]) ≥ 0`, and
`0 < h[i] ≤ 1`; and `OnePole::set_f` of any tier at such an `f` divides by `1 + g_`, nonzero,
and leaves `g_ ≥ 0` and `0 < gi_ ≤ 1`. -/
theorem coefficients_well_defined {B : Nat} (f q gain : Fin B → ℝ) (i : Fin B)
    (hf0 : 0 ≤ f i) (_hf1 : f i < 0.5) (hq : 0 < q i) :
    (q i ≠ 0
        ∧ 0 ≤ (ResonatorSVF.coefficients Real.pi Real.tan f q gain).g i
        ∧ 1 + (ResonatorSVF.coefficients Real.pi Real.tan f q gain).r i
              * (ResonatorSVF.coefficients Real.pi Real.tan f q gain).g i
            + (ResonatorSVF.coefficients Real.pi Real.tan f q gain).g i
              * (ResonatorSVF.coefficients Real.pi Real.tan f q gain).g i ≠ 0
        ∧ 0 < (ResonatorSVF.coefficients Real.pi Real.tan f q gain).h i
        ∧ (ResonatorSVF.coefficients Real.pi Real.tan f q gain).h i ≤ 1)
      ∧ ∀ (tier : FrequencyApproximation) (self : OnePole ℝ),
        1 + OnePole.tan tier Real.pi Real.tan (f i) ≠ 0
          ∧ 0 ≤ (OnePole.set_f tier Real.pi Real.tan self (f i)).g_
          ∧ 0 < (OnePole.set_f tier Real.pi Real.tan self (f i)).gi_
          ∧ (OnePole.set_f tier Real.pi Real.tan self (f i)).gi_ ≤ 1 := by
  constructor
  · have hg := OnePole.tan_exact_nonneg (f i) hf0
    have hr : 0 ≤ 1 / q i := one_div_nonneg.mpr hq.le
    have hx : 0 ≤ 1 / q i * OnePole.tan FREQUENCY_EXACT Real.pi Real.tan (f i)
        + OnePole.tan FREQUENCY_EXACT Real.pi Real.tan (f i)
          * OnePole.tan FREQUENCY_EXACT Real.pi Real.tan (f i) := by positivity
    obtain ⟨h1, h2, h3⟩ := OnePole.one_div_one_add_mem _ hx
    simp only [ResonatorSVF.coefficients]
    refine ⟨hq.ne', hg, ?_, ?_, ?_⟩
    · rw [add_assoc]; exact h1
    · rw [add_assoc]; exact h2
    · rw [add_assoc]; exact h3
  · intro tier self
    have hg := OnePole.tan_nonneg tier (f i) hf0
    obtain ⟨h1, h2, h3⟩ := OnePole.one_div_one_add_mem _ hg
    exact ⟨h1, hg, h2, h3⟩

/-- Witness for C20: one mode with `f = 0.25` and `q = 2`, and `set_f<FREQUENCY_FAST>`. -/
theorem coefficients_well_defined_witness :
    (0 : ℝ) ≤ 0.25 ∧ (0.25 : ℝ) < 0.5 ∧ (0 : ℝ) < 2
      ∧ 0 < (ResonatorSVF.coefficients Real.pi Real.tan (fun _ : Fin 1 => (0.25 : ℝ))
          (fun _ => 2) (fun _ => 1)).h 0
      ∧ (ResonatorSVF.coefficients Real.pi Real.tan (fun _ : Fin 1 => (0.25 : ℝ))
          (fun _ => 2) (fun _ => 1)).h 0 ≤ 1
      ∧ 0 < (OnePole.set_f FREQUENCY_FAST Real.pi Real.tan ⟨0, 0, 0⟩ 0.25).gi_
      ∧ (OnePole.set_f FREQUENCY_FAST Real.pi Real.tan ⟨0, 0, 0⟩ 0.25).gi_ ≤ 1 :=
  ⟨by norm_num, by norm_num, by norm_num,
    (coefficients_well_defined (fun _ : Fin 1 => (0.25 : ℝ)) (fun _ => 2) (fun _ => 1) 0
      (by norm_num) (by norm_num) (by norm_num)).1.2.2.2.1,
    (coefficients_well_defined (fun _ : Fin 1 => (0.25 : ℝ)) (fun _ => 2) (fun _ => 1) 0
      (by norm_num) (by norm_num) (by norm_num)).1.2.2.2.2,
    ((coefficients_well_defined (fun _ : Fin 1 => (0.25 : ℝ)) (fun _ => 2) (fun _ => 1) 0
      (by norm_num) (by norm_num) (by norm_num)).2 FREQUENCY_FAST ⟨0, 0, 0⟩).2.2.1,
    ((coefficients_well_defined (fun _ : Fin 1 => (0.25 : ℝ)) (fun _ => 2) (fun _ => 1) 0
      (by norm_num) (by norm_num) (by norm_num)).2 FREQUENCY_FAST ⟨0, 0, 0⟩).2.2.2⟩

end WellDefinedCoefficients

section FloatArithmetic

/-! ### OnePole: low-pass plus high-pass on `float` -/

/-- With the identity for `rnd`, the rounded model is `OnePole.Process`. -/
theorem OnePole.ProcessRounded_id {α : Type} [LinearOrderedField α] (mode : FilterMode)
    (flushed : α → α) (self : OnePole α) (x : α) :
    OnePole.ProcessRounded (fun y => y) mode flushed self x
      = OnePole.Process mode flushed self x := rfl

theorem roundNearestEven_of_lt_half (x : ℚ) (n : ℤ) (h1 : (n : ℚ) ≤ x)
    (h2 : x < n + 1 / 2) : roundNearestEven x = n := by
  have hfl : ⌊x⌋ = n := Int.floor_eq_iff.mpr ⟨h1, by linarith⟩
  have hlt : x - (n : ℚ) < 1 / 2 := by linarith
  simp only [roundNearestEven, hfl, hlt, if_true]

/-- The rounding of an `x` with `2 ^ e ≤ |x| < 2 ^ (e + 1)`, `e ≥ -126`, that lies less than
half a step above the multiple `n * 2 ^ (e - 23)`. -/
theorem roundBinary32_of_lt_half (x : ℚ) (e n : ℤ) (he : -126 ≤ e)
    (hlo : (2 : ℚ) ^ e ≤ |x|) (hhi : |x| < (2 : ℚ) ^ (e + 1))
    (h1 : (n : ℚ) ≤ x / 2 ^ (e - 23)) (h2 : x / 2 ^ (e - 23) < n + 1 / 2) :
    roundBinary32 x = n * 2 ^ (e - 23) := by
  have hpos : 0 < |x| := lt_of_lt_of_le (by positivity) hlo
  have hle : e ≤ Int.log 2 |x| := by
    rw [← Int.zpow_le_iff_le_log (by norm_num) hpos]
    simpa using hlo
  have hlt : Int.log 2 |x| < e + 1 := by
    rw [← Int.lt_zpow_iff_log_lt (by norm_num) hpos]
    simpa using hhi
  have hlog : Int.log 2 |x| = e := by omega
  have hmax : max (Int.log 2 |x|) (-126) = e := by rw [hlog]; exact max_eq_left he
  simp only [roundBinary32, hmax]
  rw [roundNearestEven_of_lt_half _ n h1 h2]

theorem roundBinary32_of_pos (x : ℚ) (e n : ℤ) (he : -126 ≤ e)
    (hlo : (2 : ℚ) ^ e ≤ x) (hhi : x < (2 : ℚ) ^ (e + 1))
    (h1 : (n : ℚ) ≤ x / 2 ^ (e - 23)) (h2 : x / 2 ^ (e - 23) < n + 1 / 2) :
    roundBinary32 x = n * 2 ^ (e - 23) := by
  have hpos : 0 < x := lt_of_lt_of_le (by positivity) hlo
  rw [← abs_of_pos hpos] at hlo hhi
  exact roundBinary32_of_lt_half x e n he hlo hhi h1 h2

theorem roundBinary32_of_neg (x : ℚ) (e n : ℤ) (he : -126 ≤ e)
    (hlo : (2 : ℚ) ^ e ≤ -x) (hhi : -x < (2 : ℚ) ^ (e + 1))
    (h1 : (n : ℚ) ≤ x / 2 ^ (e - 23)) (h2 : x / 2 ^ (e - 23) < n + 1 / 2) :
    roundBinary32 x = n * 2 ^ (e - 23) := by
  have hneg : x < 0 := by
    have : (0 : ℚ) < -x := lt_of_lt_of_le (by positivity) hlo
    linarith
  rw [← abs_of_neg hneg] at hlo hhi
  exact roundBinary32_of_lt_half x e n he hlo hhi h1 h2

theorem roundBinary32_one : roundBinary32 1 = 1 := by
  rw [roundBinary32_of_pos 1 0 (2 ^ 23) (by norm_num) (by norm_num) (by norm_num)
    (by norm_num) (by norm_num)]
  norm_num

theorem roundBinary32_two : roundBinary32 2 = 2 := by
  rw [roundBinary32_of_pos 2 1 (2 ^ 23) (by norm_num) (by norm_num) (by norm_num)
    (by norm_num) (by norm_num)]
  norm_num

/-- The state of the counterexample for C3 is the one a filter with `g_ = 1`, `gi_ = 0.5`
reaches from rest on the input sample 2, under a flush that leaves 2 as it is. -/
theorem OnePole.ProcessRounded_from_rest :
    (OnePole.ProcessRounded roundBinary32 FILTER_MODE_LOW_PASS (fun y => y)
        ⟨1, 1 / 2, 0⟩ 2).2 = ⟨1, 1 / 2, 2⟩ := by
  have e1 : (1 : ℚ) * 2 = 2 := by norm_num
  have e2 : (2 : ℚ) + 0 = 2 := by norm_num
  have e3 : (2 : ℚ) * (1 / 2) = 1 := by norm_num
  have e4 : (2 : ℚ) - 1 = 1 := by norm_num
  have e5 : (1 : ℚ) * 1 = 1 := by norm_num
  have e6 : (1 : ℚ) + 1 = 2 := by norm_num
  simp only [OnePole.ProcessRounded, if_true, e1, e2, e3, e4, e5, e6, roundBinary32_one,
    roundBinary32_two]

/-- Counterexample for C3 on `float`: a filter with `g_ = 1`, `gi_ = 0.5`, `state_ = 2` and the
input `2 ^ (-30)`.  The low-pass call returns 1 (the sum `2 ^ (-30) + 2` rounds to 2), the
high-pass call returns -1 (the difference `2 ^ (-30) - 1` rounds to -1), and their sum 0 is
not the input. -/
theorem onePole_lowpass_add_highpass_float :
    (OnePole.ProcessRounded roundBinary32 FILTER_MODE_LOW_PASS (fun y => y)
        ⟨1, 1 / 2, 2⟩ (2 ^ (-30 : ℤ))).1 = 1
      ∧ (OnePole.ProcessRounded roundBinary32 FILTER_MODE_HIGH_PASS (fun y => y)
        ⟨1, 1 / 2, 2⟩ (2 ^ (-30 : ℤ))).1 = -1
      ∧ (OnePole.ProcessRounded roundBinary32 FILTER_MODE_LOW_PASS (fun y => y)
          ⟨1, 1 / 2, 2⟩ (2 ^ (-30 : ℤ))).1
        + (OnePole.ProcessRounded roundBinary32 FILTER_MODE_HIGH_PASS (fun y => y)
          ⟨1, 1 / 2, 2⟩ (2 ^ (-30 : ℤ))).1 ≠ 2 ^ (-30 : ℤ) := by
  have r1 : roundBinary32 (1 * 2 ^ (-30 : ℤ)) = 2 ^ (-30 : ℤ) := by
    rw [roundBinary32_of_pos _ (-30) (2 ^ 23) (by norm_num) (by norm_num) (by norm_num)
      (by norm_num) (by norm_num)]
    norm_num
  have r2 : roundBinary32 (2 ^ (-30 : ℤ) + 2) = 2 := by
    rw [roundBinary32_of_pos _ 1 (2 ^ 23) (by norm_num) (by norm_num) (by norm_num)
      (by norm_num) (by norm_num)]
    norm_num
  have r3 : roundBinary32 (2 * (1 / 2)) = 1 := by
    rw [roundBinary32_of_pos _ 0 (2 ^ 23) (by norm_num) (by norm_num) (by norm_num)
      (by norm_num) (by norm_num)]
    norm_num
  have r4 : roundBinary32 (2 ^ (-30 : ℤ) - 1) = -1 := by
    rw [roundBinary32_of_neg _ (-1) (-2 ^ 24) (by norm_num) (by norm_num) (by norm_num)
      (by norm_num) (by norm_num)]
    norm_num
  have hlp : (OnePole.ProcessRounded roundBinary32 FILTER_MODE_LOW_PASS (fun y => y)
      ⟨1, 1 / 2, 2⟩ (2 ^ (-30 : ℤ))).1 = 1 := by
    simp only [OnePole.ProcessRounded, if_true, r1, r2, r3]
  have hhp : (OnePole.ProcessRounded roundBinary32 FILTER_MODE_HIGH_PASS (fun y => y)
      ⟨1, 1 / 2, 2⟩ (2 ^ (-30 : ℤ))).1 = -1 := by
    unfold OnePole.ProcessRounded
    rw [if_neg (by decide), if_pos rfl]
    simp only [r1, r2, r3, r4]
  refine ⟨hlp, hhp, ?_⟩
  rw [hlp, hhp]
  norm_num

end FloatArithmetic

end mi
